import Mathlib

/-
Verification of the cgrates tariff-plan loading pipeline (TpReader) and the
rate-interval merge algorithm, against its natural-language specification.

The Go source is shallowly embedded: Go maps keyed by entity tag become
association lists (`AMap`), imperative loops become structural recursion or
folds, the injected collaborators (LoadReader, DataDB) become records of pure
functions, and fallible paths return `Except`.  Nondeterministic UUID
generation (utils.GenUUID) is either modelled as an explicit parameter or
omitted from record fields when no claim mentions it.
-/

set_option linter.unusedVariables false

deriving instance DecidableEq for Except

namespace Cgrates

/-- Association map from string tags to values: the shallow embedding of Go
maps keyed by entity tag.  A deterministic iteration order (the list order)
stands in for Go's unspecified map iteration order. -/
def AMap (α : Type) : Type := List (String × α)

/-- Empty map. -/
def AMap.empty {α : Type} : AMap α := []

/-- Lookup by key, first binding wins (keys are kept unique by insertKV). -/
def AMap.lookup {α : Type} : AMap α → String → Option α
  | [], _ => none
  | (k, v) :: rest, key => if k = key then some v else AMap.lookup rest key

/-- Insert or overwrite a binding, in place when the key exists (Go map
assignment semantics). -/
def AMap.insertKV {α : Type} : AMap α → String → α → AMap α
  | [], key, v => [(key, v)]
  | (k, w) :: rest, key, v =>
    if k = key then (k, v) :: rest else (k, w) :: AMap.insertKV rest key v

/-- Keys of the map in iteration order. -/
def AMap.keysOf {α : Type} (m : AMap α) : List String := m.map Prod.fst

/-- Modelled from the spec: the sentinel tag utils.ANY (the wildcard "any"
destination / timing tag); the utils package is not part of the provided
source. -/
def ANY : String := "*any"

/-- Modelled from the spec: the immediate-execution sentinel tag utils.ASAP. -/
def ASAP : String := "*asap"

/-- Modelled from the spec: the sentinel timing tag utils.MetaEveryMinute. -/
def MetaEveryMinute : String := "*every_minute"

/-- Modelled from the spec: the sentinel timing tag utils.MetaHourly. -/
def MetaHourly : String := "*hourly"

/-- Modelled from the spec: the message carried by the "not found" sentinel
error value (utils.NotFoundCaps), which LoadAll treats as non-fatal. -/
def NotFoundCaps : String := "NOT_FOUND"

/-- Calendar pattern of a rate interval (engine RITiming): year/month/
month-day/week-day sets plus a start and end time-of-day.  The set types
(utils.Years etc.) are integer slices in Go. -/
structure RITiming where
  years : List Int
  months : List Nat
  monthDays : List Nat
  weekDays : List Nat
  startTime : String
  endTime : String
  deriving DecidableEq, Repr

/-- Tariff-plan timing row after mapping (utils.TPTiming): a tagged calendar
pattern. -/
structure TPTiming where
  id : String
  years : List Int
  months : List Nat
  monthDays : List Nat
  weekDays : List Nat
  startTime : String
  endTime : String
  deriving DecidableEq, Repr

/-- View of a TPTiming as the calendar pattern embedded into rate intervals
and action timings (the field-by-field copy done at the use sites in
tp_reader.go). -/
def TPTiming.toRITiming (t : TPTiming) : RITiming :=
  { years := t.years, months := t.months, monthDays := t.monthDays,
    weekDays := t.weekDays, startTime := t.startTime, endTime := t.endTime }

/-- Modelled from the spec: one priced rate step (engine Rate, a "price
curve" entry); the Rate type is not part of the provided source.  Prices are
rationals standing in for Go float64. -/
structure Rate where
  groupIntervalStart : Int
  value : Rat
  rateIncrement : Int
  rateUnit : Int
  deriving DecidableEq, Repr

/-- Rate interval of a rating plan: a (calendar pattern, weight, rate list)
triple. -/
structure RateInterval where
  timing : RITiming
  weight : Rat
  rates : List Rate
  deriving DecidableEq, Repr

/-- Modelled from the spec: RateInterval.Equal, the interval equality used by
the merge in RatingPlan.AddRateInterval; equality is over the identity-bearing
fields, the weight and the full calendar pattern (the rate lists do not count
toward equality). -/
def RateInterval.Equal (i o : RateInterval) : Bool :=
  decide (i.timing = o.timing ∧ i.weight = o.weight)

/-- Modelled from the spec: RateGroups.AddRate extends a rate list with new
rates by union, never inserting a rate already present. -/
def addRates (pg : List Rate) (ps : List Rate) : List Rate :=
  ps.foldl (fun acc p => if p ∈ acc then acc else acc ++ [p]) pg

/-- Shallow embedding of RatingPlan.AddRateInterval (engine/ratingplan.go,
lines 43-57) for one interval over one interval list: the first existing
interval Equal to the incoming one absorbs the incoming rates via AddRate and
the scan stops; when none is Equal the incoming interval is appended. -/
def addRateInterval (l : List RateInterval) (i : RateInterval) : List RateInterval :=
  match l with
  | [] => [i]
  | ei :: rest =>
    if i.Equal ei then { ei with rates := addRates ei.rates i.rates } :: rest
    else ei :: addRateInterval rest i

/-- Rating plan as used by the tp_reader.go flows: per-destination buckets of
rate intervals. -/
structure RatingPlan where
  id : String
  destinationRates : AMap (List RateInterval)

/-- Modelled from the spec: the two-argument RatingPlan.AddRateInterval used
by LoadRatingPlans/LoadRatingPlansFiltered dispatches the interval to the
destination id's bucket and merges it there with the algorithm of
engine/ratingplan.go (addRateInterval above). -/
def RatingPlan.addRateIntervalD (rp : RatingPlan) (destId : String) (i : RateInterval) : RatingPlan :=
  let bucket := (rp.destinationRates.lookup destId).getD []
  { rp with destinationRates := rp.destinationRates.insertKV destId (addRateInterval bucket i) }

/-- Destination bucket of a rating plan, empty when the destination id has no
bucket yet. -/
def bucketOf (rp : RatingPlan) (destId : String) : List RateInterval :=
  (rp.destinationRates.lookup destId).getD []

theorem AMap.lookup_insertKV_self {α : Type} (m : AMap α) (k : String) (v : α) :
    (m.insertKV k v).lookup k = some v := by
  induction m with
  | nil => simp [AMap.insertKV, AMap.lookup]
  | cons hd tl ih =>
    obtain ⟨k', v'⟩ := hd
    by_cases h : k' = k
    · simp [AMap.insertKV, AMap.lookup, h]
    · simp [AMap.insertKV, AMap.lookup, h, ih]

theorem RateInterval.Equal_iff (i o : RateInterval) :
    i.Equal o = true ↔ (i.timing = o.timing ∧ i.weight = o.weight) := by
  simp [RateInterval.Equal]

theorem RateInterval.Equal_refl (i : RateInterval) : i.Equal i = true := by
  simp [RateInterval.Equal_iff]

theorem RateInterval.Equal_symm {i o : RateInterval} (h : i.Equal o = true) :
    o.Equal i = true := by
  rw [RateInterval.Equal_iff] at h ⊢
  exact ⟨h.1.symm, h.2.symm⟩

theorem RateInterval.Equal_congr {i1 i2 : RateInterval} (h : i1.Equal i2 = true)
    (e : RateInterval) : i2.Equal e = i1.Equal e := by
  rw [RateInterval.Equal_iff] at h
  simp [RateInterval.Equal, h.1, h.2]

theorem mem_addRates (r : Rate) (ps : List Rate) (l : List Rate) :
    r ∈ addRates l ps ↔ (r ∈ l ∨ r ∈ ps) := by
  induction ps generalizing l with
  | nil => simp [addRates]
  | cons p tl ih =>
    show r ∈ addRates (if p ∈ l then l else l ++ [p]) tl ↔ _
    rw [ih]
    by_cases hp : p ∈ l
    · simp only [if_pos hp, List.mem_cons]
      constructor
      · rintro (h | h)
        · exact Or.inl h
        · exact Or.inr (Or.inr h)
      · rintro (h | h | h)
        · exact Or.inl h
        · exact Or.inl (h ▸ hp)
        · exact Or.inr h
    · simp only [if_neg hp, List.mem_append, List.mem_singleton, List.mem_cons]
      tauto

theorem addRates_of_subset (l : List Rate) (ps : List Rate)
    (h : ∀ p ∈ ps, p ∈ l) : addRates l ps = l := by
  induction ps with
  | nil => rfl
  | cons p tl ih =>
    show addRates (if p ∈ l then l else l ++ [p]) tl = l
    rw [if_pos (h p (List.mem_cons_self p tl))]
    exact ih fun q hq => h q (List.mem_cons_of_mem p hq)

theorem addRates_self (l : List Rate) : addRates l l = l :=
  addRates_of_subset l l fun _ h => h

theorem addRateInterval_of_fresh (l : List RateInterval) (i : RateInterval)
    (h : ∀ ei ∈ l, i.Equal ei = false) : addRateInterval l i = l ++ [i] := by
  induction l with
  | nil => rfl
  | cons ei tl ih =>
    have hne : i.Equal ei = false := h ei (List.mem_cons_self ei tl)
    simp only [addRateInterval, hne, Bool.false_eq_true, if_false, List.cons_append,
      List.cons.injEq, true_and]
    exact ih fun e he => h e (List.mem_cons_of_mem ei he)

theorem addRateInterval_append_equal (l : List RateInterval) (i j : RateInterval)
    (hfresh : ∀ ei ∈ l, i.Equal ei = false) (heq : i.Equal j = true) :
    addRateInterval (l ++ [j]) i = l ++ [{ j with rates := addRates j.rates i.rates }] := by
  induction l with
  | nil => simp [addRateInterval, heq]
  | cons ei tl ih =>
    have hne : i.Equal ei = false := hfresh ei (List.mem_cons_self ei tl)
    simp only [List.cons_append, addRateInterval, hne, Bool.false_eq_true, if_false,
      List.cons.injEq, true_and]
    exact ih fun e he => hfresh e (List.mem_cons_of_mem ei he)

theorem bucketOf_addRateIntervalD (rp : RatingPlan) (destId : String) (i : RateInterval) :
    bucketOf (rp.addRateIntervalD destId i) destId
      = addRateInterval (bucketOf rp destId) i := by
  simp [bucketOf, RatingPlan.addRateIntervalD, AMap.lookup_insertKV_self]

/-- Claim C1: adding two Equal rate intervals to the same destination bucket of
a RatingPlan (the second added while the first is the only interval of the
bucket Equal to it) leaves exactly one interval Equal to them in the bucket,
that interval's rate list is the union of the two intervals' rate lists, and
adding the very same interval twice neither inserts a duplicate nor doubles
the existing interval's rates (the bucket gains exactly one copy of the
interval with its rate list unchanged). -/
theorem addRateInterval_merge_union
    (rp : RatingPlan) (destId : String) (i1 i2 : RateInterval)
    (hEq : i1.Equal i2 = true)
    (hFresh : ∀ ei ∈ bucketOf rp destId, i1.Equal ei = false) :
    (bucketOf ((rp.addRateIntervalD destId i1).addRateIntervalD destId i2) destId).countP
        (fun ei => i1.Equal ei) = 1
    ∧ (∀ ei ∈ bucketOf ((rp.addRateIntervalD destId i1).addRateIntervalD destId i2) destId,
        i1.Equal ei = true → ∀ r : Rate, r ∈ ei.rates ↔ (r ∈ i1.rates ∨ r ∈ i2.rates))
    ∧ bucketOf ((rp.addRateIntervalD destId i1).addRateIntervalD destId i1) destId
        = bucketOf rp destId ++ [i1] := by
  have hFresh2 : ∀ ei ∈ bucketOf rp destId, i2.Equal ei = false := by
    intro ei hei
    rw [RateInterval.Equal_congr hEq ei]
    exact hFresh ei hei
  have hb1 : bucketOf (rp.addRateIntervalD destId i1) destId
      = bucketOf rp destId ++ [i1] := by
    rw [bucketOf_addRateIntervalD]
    exact addRateInterval_of_fresh _ _ hFresh
  have hb2 : bucketOf ((rp.addRateIntervalD destId i1).addRateIntervalD destId i2) destId
      = bucketOf rp destId ++ [{ i1 with rates := addRates i1.rates i2.rates }] := by
    rw [bucketOf_addRateIntervalD, hb1]
    exact addRateInterval_append_equal _ _ _ hFresh2 (RateInterval.Equal_symm hEq)
  have hmerged : i1.Equal { i1 with rates := addRates i1.rates i2.rates } = true := by
    simp [RateInterval.Equal_iff]
  refine ⟨?_, ?_, ?_⟩
  · rw [hb2, List.countP_append]
    have h0 : (bucketOf rp destId).countP (fun ei => i1.Equal ei) = 0 := by
      rw [List.countP_eq_zero]
      intro a ha
      simp [hFresh a ha]
    rw [h0]
    simp [List.countP, List.countP.go, hmerged]
  · intro ei hei heq r
    rw [hb2, List.mem_append, List.mem_singleton] at hei
    rcases hei with hmem | hrfl
    · rw [hFresh ei hmem] at heq
      exact absurd heq (by simp)
    · subst hrfl
      exact mem_addRates r i2.rates i1.rates
  · have hb1' : bucketOf ((rp.addRateIntervalD destId i1).addRateIntervalD destId i1) destId
        = bucketOf rp destId ++ [{ i1 with rates := addRates i1.rates i1.rates }] := by
      rw [bucketOf_addRateIntervalD, hb1]
      exact addRateInterval_append_equal _ _ _ hFresh (RateInterval.Equal_refl i1)
    rw [hb1', addRates_self]

/-- Concrete rating plan used by the C1 witness. -/
def rpW : RatingPlan := { id := "RP1", destinationRates := [] }

/-- Concrete rate interval used by the witnesses. -/
def i1W : RateInterval :=
  { timing := { years := [], months := [], monthDays := [], weekDays := [],
                startTime := "00:00:00", endTime := "" },
    weight := 10,
    rates := [{ groupIntervalStart := 0, value := 1, rateIncrement := 60, rateUnit := 60 }] }

/-- Concrete rate interval Equal to i1W but with a different rate list. -/
def i2W : RateInterval :=
  { timing := { years := [], months := [], monthDays := [], weekDays := [],
                startTime := "00:00:00", endTime := "" },
    weight := 10,
    rates := [{ groupIntervalStart := 60, value := 2, rateIncrement := 1, rateUnit := 60 }] }

theorem addRateInterval_merge_union_witness :
    (i1W.Equal i2W = true)
    ∧ (∀ ei ∈ bucketOf rpW "D1", i1W.Equal ei = false)
    ∧ ((bucketOf ((rpW.addRateIntervalD "D1" i1W).addRateIntervalD "D1" i2W) "D1").countP
          (fun ei => i1W.Equal ei) = 1
      ∧ (∀ ei ∈ bucketOf ((rpW.addRateIntervalD "D1" i1W).addRateIntervalD "D1" i2W) "D1",
          i1W.Equal ei = true → ∀ r : Rate, r ∈ ei.rates ↔ (r ∈ i1W.rates ∨ r ∈ i2W.rates))
      ∧ bucketOf ((rpW.addRateIntervalD "D1" i1W).addRateIntervalD "D1" i1W) "D1"
          = bucketOf rpW "D1" ++ [i1W]) :=
  ⟨by decide, by decide,
    addRateInterval_merge_union rpW "D1" i1W i2W (by decide) (by decide)⟩

/-- Additional lookup/insert lemma: inserting under a different key does not
change a lookup. -/
theorem AMap.lookup_insertKV_ne {α : Type} (m : AMap α) {k k' : String} (v : α)
    (h : k ≠ k') : (m.insertKV k v).lookup k' = m.lookup k' := by
  induction m with
  | nil => simp [AMap.insertKV, AMap.lookup, h]
  | cons hd tl ih =>
    obtain ⟨k0, v0⟩ := hd
    by_cases h0 : k0 = k
    · subst h0
      simp [AMap.insertKV, AMap.lookup, h]
    · simp only [AMap.insertKV, if_neg h0, AMap.lookup]
      by_cases h1 : k0 = k'
      · simp [h1]
      · simp [h1, ih]

/-- The seventeen per-kind load-all steps driven by TpReader.LoadAll. -/
inductive StepKind where
  | destinations
  | timings
  | rates
  | destinationRates
  | ratingPlans
  | ratingProfiles
  | sharedGroups
  | lcrs
  | actions
  | actionPlans
  | actionTriggers
  | accountActions
  | derivedChargers
  | cdrStats
  | users
  | aliases
  | resourceLimits
  deriving DecidableEq, Repr

/-- Fixed order in which TpReader.LoadAll (tp_reader.go, lines 1606-1659) runs
the load-all steps. -/
def stepOrder : List StepKind :=
  [.destinations, .timings, .rates, .destinationRates, .ratingPlans,
   .ratingProfiles, .sharedGroups, .lcrs, .actions, .actionPlans,
   .actionTriggers, .accountActions, .derivedChargers, .cdrStats, .users,
   .aliases, .resourceLimits]

/-- Condition under which a step's result halts LoadAll: the Go guard
err != nil && err.Error() != utils.NotFoundCaps. -/
def haltsLoadAll (e : Option String) : Prop :=
  e ≠ none ∧ e ≠ some NotFoundCaps

instance (e : Option String) : Decidable (haltsLoadAll e) := by
  unfold haltsLoadAll
  infer_instance

/-- Runner for the LoadAll chain: each step is run in sequence; a result
satisfying the halt guard is returned at once, anything else (nil or the
not-found sentinel) lets the chain continue; a trailing not-found result is
discarded by the final return nil.  The step outcomes are injected as the
function f; the returned list records which steps were executed. -/
def runSteps (f : StepKind → Option String) : List StepKind → List StepKind × Option String
  | [] => ([], none)
  | s :: rest =>
    if haltsLoadAll (f s) then ([s], f s)
    else
      let res := runSteps f rest
      (s :: res.1, res.2)

/-- Shallow embedding of TpReader.LoadAll over the injected step outcomes. -/
def LoadAll (f : StepKind → Option String) : List StepKind × Option String :=
  runSteps f stepOrder

theorem runSteps_all_ok (f : StepKind → Option String) (l : List StepKind)
    (h : ∀ s ∈ l, ¬haltsLoadAll (f s)) : runSteps f l = (l, none) := by
  induction l with
  | nil => rfl
  | cons s rest ih =>
    simp only [runSteps, if_neg (h s (List.mem_cons_self s rest))]
    rw [ih fun t ht => h t (List.mem_cons_of_mem s ht)]

theorem runSteps_fatal (f : StepKind → Option String) (l1 l2 : List StepKind)
    (s : StepKind) (h1 : ∀ t ∈ l1, ¬haltsLoadAll (f t)) (hs : haltsLoadAll (f s)) :
    runSteps f (l1 ++ s :: l2) = (l1 ++ [s], f s) := by
  induction l1 with
  | nil => simp [runSteps, if_pos hs]
  | cons t rest ih =>
    simp only [List.cons_append, runSteps, if_neg (h1 t (List.mem_cons_self t rest)),
      List.append_eq]
    rw [ih fun u hu => h1 u (List.mem_cons_of_mem t hu)]

/-- Claim C4: LoadAll runs the load-all steps in the fixed order Destinations,
Timings, Rates, DestinationRates, RatingPlans, RatingProfiles, SharedGroups,
LCRs, Actions, ActionPlans, ActionTriggers, AccountActions, DerivedChargers,
CdrStats, Users, Aliases, ResourceLimits; when no step produces an error other
than the not-found sentinel the whole chain executes and LoadAll returns nil,
and when a step produces any other error it is returned immediately and no
later step runs. -/
theorem loadAll_order_and_error_policy :
    stepOrder = [.destinations, .timings, .rates, .destinationRates, .ratingPlans,
      .ratingProfiles, .sharedGroups, .lcrs, .actions, .actionPlans,
      .actionTriggers, .accountActions, .derivedChargers, .cdrStats, .users,
      .aliases, .resourceLimits]
    ∧ (∀ f : StepKind → Option String,
        (∀ s ∈ stepOrder, ¬haltsLoadAll (f s)) → LoadAll f = (stepOrder, none))
    ∧ (∀ (f : StepKind → Option String) (l1 l2 : List StepKind) (s : StepKind),
        stepOrder = l1 ++ s :: l2 → (∀ t ∈ l1, ¬haltsLoadAll (f t)) →
        haltsLoadAll (f s) → LoadAll f = (l1 ++ [s], f s)) := by
  refine ⟨rfl, ?_, ?_⟩
  · intro f h
    exact runSteps_all_ok f stepOrder h
  · intro f l1 l2 s hsplit h1 hs
    unfold LoadAll
    rw [hsplit]
    exact runSteps_fatal f l1 l2 s h1 hs

/-- Step outcomes used by the C4 witness: every step reports not-found except
Rates, which is fine (nil). -/
def stepResW : StepKind → Option String
  | .rates => none
  | _ => some NotFoundCaps

/-- Step outcomes used by the C4 witness: DestinationRates fails hard, the
step before it reports not-found or nil. -/
def stepResW2 : StepKind → Option String
  | .destinationRates => some "could not find rate for tag R9"
  | .timings => none
  | _ => some NotFoundCaps

theorem loadAll_order_and_error_policy_witness :
    LoadAll stepResW = (stepOrder, none)
    ∧ LoadAll stepResW2
        = ([.destinations, .timings, .rates, .destinationRates],
           some "could not find rate for tag R9") :=
  ⟨loadAll_order_and_error_policy.2.1 stepResW (by decide),
   loadAll_order_and_error_policy.2.2 stepResW2 [.destinations, .timings, .rates]
     [.ratingPlans, .ratingProfiles, .sharedGroups, .lcrs, .actions, .actionPlans,
      .actionTriggers, .accountActions, .derivedChargers, .cdrStats, .users,
      .aliases, .resourceLimits] .destinationRates (by decide) (by decide) (by decide)⟩

/-- Action timing of an action plan: weight, an optional rate interval whose
calendar pattern carries the timing, and the actions tag it fires.  The Uuid
field (utils.GenUUID) is omitted: no claim mentions it. -/
structure ActionTiming where
  weight : Rat
  timing : Option RateInterval
  actionsID : String

/-- Modelled from the spec: ActionTiming.IsASAP holds when the embedded
timing's start time is the immediate-execution sentinel; the method body is
not part of the provided source. -/
def ActionTiming.IsASAP (t : ActionTiming) : Bool :=
  match t.timing with
  | none => false
  | some ri => decide (ri.timing.startTime = ASAP)

/-- Action plan: a named schedule with its action timings and the set of
bound account ids (the keys of the Go utils.StringMap, in iteration order;
they are pairwise distinct). -/
structure ActionPlan where
  id : String
  actionTimings : List ActionTiming
  accountIDs : List String

/-- Deferred unit of work pushed for the scheduler; accountID is the empty
string for an unbound task (the Go zero value).  The Uuid field is omitted:
no claim mentions it. -/
structure Task where
  accountID : String
  actionsID : String
  deriving DecidableEq, Repr

/-- Shallow embedding of the ASAP-task block of TpReader.WriteToDatabase
(tp_reader.go, lines 1732-1761): walking one action plan's action timings in
order and accumulating the pushed tasks; for an ASAP timing one task per
bound account is pushed, then one unbound task when the bound-account set is
empty. -/
def writeActionPlanTasks (ap : ActionPlan) : List Task :=
  ap.actionTimings.foldl
    (fun acc t =>
      if t.IsASAP then
        let acc := acc ++ ap.accountIDs.map fun accID =>
          { accountID := accID, actionsID := t.actionsID }
        if ap.accountIDs.length = 0 then
          acc ++ [{ accountID := "", actionsID := t.actionsID }]
        else acc
      else acc)
    []

/-- Per-timing description of the pushed tasks, used to state the claim. -/
def asapTasksFor (ap : ActionPlan) (t : ActionTiming) : List Task :=
  if t.IsASAP then
    if ap.accountIDs.isEmpty then [{ accountID := "", actionsID := t.actionsID }]
    else ap.accountIDs.map fun accID => { accountID := accID, actionsID := t.actionsID }
  else []

theorem writeActionPlanTasks_go (ap : ActionPlan) (l : List ActionTiming) (acc : List Task) :
    l.foldl
      (fun acc t =>
        if t.IsASAP then
          let acc := acc ++ ap.accountIDs.map fun accID =>
            { accountID := accID, actionsID := t.actionsID }
          if ap.accountIDs.length = 0 then
            acc ++ [{ accountID := "", actionsID := t.actionsID }]
          else acc
        else acc)
      acc
    = acc ++ l.flatMap (asapTasksFor ap) := by
  induction l generalizing acc with
  | nil => simp
  | cons t rest ih =>
    simp only [List.foldl_cons, List.flatMap_cons, ih]
    by_cases hasap : t.IsASAP
    · cases haccs : ap.accountIDs with
      | nil => simp [asapTasksFor, hasap, haccs]
      | cons a rest' => simp [asapTasksFor, hasap, haccs]
    · simp [asapTasksFor, hasap]

/-- Claim C3: in WriteToDatabase, each ASAP action timing of an action plan
pushes exactly one task per bound account (carrying the account id and the
timing's actions id), or exactly one unbound task when the bound-account set
is empty, and non-ASAP action timings push no task; in total the pushed
tasks are the per-timing contributions in order, and their number is the
number of ASAP timings times the number of bound accounts (or times one when
no account is bound). -/
theorem writeToDatabase_asap_tasks (ap : ActionPlan) :
    writeActionPlanTasks ap = ap.actionTimings.flatMap (asapTasksFor ap)
    ∧ (∀ t : ActionTiming, t.IsASAP = true → ap.accountIDs ≠ [] →
        asapTasksFor ap t
          = ap.accountIDs.map fun accID => { accountID := accID, actionsID := t.actionsID })
    ∧ (∀ t : ActionTiming, t.IsASAP = true → ap.accountIDs = [] →
        asapTasksFor ap t = [{ accountID := "", actionsID := t.actionsID }])
    ∧ (∀ t : ActionTiming, t.IsASAP = false → asapTasksFor ap t = [])
    ∧ (writeActionPlanTasks ap).length
        = (ap.actionTimings.filter fun t => t.IsASAP).length
          * (if ap.accountIDs = [] then 1 else ap.accountIDs.length) := by
  have hmain : writeActionPlanTasks ap = ap.actionTimings.flatMap (asapTasksFor ap) := by
    unfold writeActionPlanTasks
    rw [writeActionPlanTasks_go ap ap.actionTimings []]
    simp
  refine ⟨hmain, ?_, ?_, ?_, ?_⟩
  · intro t hasap hne
    simp [asapTasksFor, hasap, List.isEmpty_iff, hne]
  · intro t hasap hnil
    simp [asapTasksFor, hasap, hnil]
  · intro t hasap
    simp [asapTasksFor, hasap]
  · rw [hmain, List.length_flatMap]
    induction ap.actionTimings with
    | nil => simp
    | cons t rest ih =>
      simp only [List.map_cons, List.sum_cons, List.filter_cons, Function.comp]
      by_cases hasap : t.IsASAP
      · have hlen : (asapTasksFor ap t).length
            = (if ap.accountIDs = [] then 1 else ap.accountIDs.length) := by
          cases haccs : ap.accountIDs with
          | nil => simp [asapTasksFor, hasap, haccs]
          | cons a rest' => simp [asapTasksFor, hasap, haccs]
        simp only [hasap, if_true, List.length_cons]
        rw [hlen]
        have ih' := ih
        simp only [Function.comp] at ih'
        rw [ih']
        ring
      · have hlen : (asapTasksFor ap t).length = 0 := by
          simp [asapTasksFor, hasap]
        simp only [hasap, Bool.false_eq_true, if_false]
        rw [hlen]
        have ih' := ih
        simp only [Function.comp] at ih'
        rw [ih']
        ring

/-- Witness action plan: one ASAP timing, one non-ASAP timing, two bound
accounts. -/
def apW : ActionPlan :=
  { id := "AP1",
    actionTimings :=
      [{ weight := 10,
         timing := some { timing := { years := [], months := [], monthDays := [],
                                      weekDays := [], startTime := ASAP, endTime := "" },
                          weight := 10, rates := [] },
         actionsID := "TOPUP" },
       { weight := 5,
         timing := some { timing := { years := [], months := [], monthDays := [],
                                      weekDays := [], startTime := "00:00:00", endTime := "" },
                          weight := 5, rates := [] },
         actionsID := "LOG" }],
    accountIDs := ["1001", "1002"] }

theorem writeToDatabase_asap_tasks_witness :
    writeActionPlanTasks apW
      = [{ accountID := "1001", actionsID := "TOPUP" },
         { accountID := "1002", actionsID := "TOPUP" }]
    ∧ writeActionPlanTasks apW = apW.actionTimings.flatMap (asapTasksFor apW) :=
  ⟨by decide, (writeToDatabase_asap_tasks apW).1⟩

/-- Destination record: a named ordered set of dial-prefixes. -/
structure Destination where
  id : String
  prefixes : List String
  deriving DecidableEq, Repr

/-- Raw tariff-plan destination row (utils.TPDestination). -/
structure TPDestination where
  id : String
  prefixes : List String
  deriving DecidableEq, Repr

/-- Modelled from the spec: NewDestinationFromTPDestination, the Entity
Mapper for one destination row; its body is not part of the provided
source. -/
def NewDestinationFromTPDestination (d : TPDestination) : Destination :=
  { id := d.id, prefixes := d.prefixes }

/-- Mapped rate row (utils.TPRate): a tagged price curve. -/
structure TPRate where
  id : String
  slots : List Rate
  deriving DecidableEq, Repr

/-- One destination-rate entry of a TPDestinationRate group: a destination id
bound to a rate id, with the resolved rate filled in during loading. -/
structure DestRateItem where
  destinationId : String
  rateId : String
  rate : Option TPRate
  deriving DecidableEq, Repr

/-- Mapped destination-rate group (utils.TPDestinationRate). -/
structure TPDestinationRate where
  id : String
  destinationRates : List DestRateItem
  deriving DecidableEq, Repr

/-- Action trigger, modelled by its identity only: the claims reference
triggers solely by tag lookup, none of the threshold fields is
load-bearing here. -/
structure ActionTrigger where
  id : String
  deriving DecidableEq, Repr

/-- Account as built by LoadAccountActions.  countersInited records whether
Account.InitCounters was called; modelled from the spec ("seeds its
counters"), the method body is not part of the provided source. -/
structure Account where
  id : String
  actionTriggers : List ActionTrigger
  allowNegative : Bool
  disabled : Bool
  countersInited : Bool
  deriving DecidableEq, Repr

/-- In-memory state of the TpReader: the entity maps touched by the claims
under verification (a projection of the Go struct onto the modelled
fields). -/
structure TpReaderState where
  destinations : AMap Destination
  timings : AMap TPTiming
  rates : AMap TPRate
  destinationRates : AMap TPDestinationRate
  ratingPlans : AMap RatingPlan
  accountActions : AMap Account
  actionsTriggers : AMap (List ActionTrigger)
  actionPlans : AMap ActionPlan
  acntActionPlans : AMap (List String)
  revDests : AMap (List String)

/-- Shallow embedding of TpReader.Init (tp_reader.go, lines 109-130): every
entity map is reset to a fresh empty map. -/
def TpReader.Init : TpReaderState :=
  { destinations := AMap.empty, timings := AMap.empty, rates := AMap.empty,
    destinationRates := AMap.empty, ratingPlans := AMap.empty,
    accountActions := AMap.empty, actionsTriggers := AMap.empty,
    actionPlans := AMap.empty, acntActionPlans := AMap.empty,
    revDests := AMap.empty }

/-- Sentinel timing inserted for the tag *any by NewTpReader and LoadTimings:
empty calendar sets, start time 00:00:00. -/
def anyTiming : TPTiming :=
  { id := ANY, years := [], months := [], monthDays := [], weekDays := [],
    startTime := "00:00:00", endTime := "" }

/-- Sentinel timing inserted for the tag *asap by NewTpReader and
LoadTimings: empty calendar sets, start time equal to the sentinel itself. -/
def asapTiming : TPTiming :=
  { id := ASAP, years := [], months := [], monthDays := [], weekDays := [],
    startTime := ASAP, endTime := "" }

/-- Sentinel timing inserted for the tag *every_minute by NewTpReader. -/
def everyMinuteTiming : TPTiming :=
  { id := MetaEveryMinute, years := [], months := [], monthDays := [],
    weekDays := [], startTime := MetaEveryMinute, endTime := "" }

/-- Sentinel timing inserted for the tag *hourly by NewTpReader. -/
def hourlyTiming : TPTiming :=
  { id := MetaHourly, years := [], months := [], monthDays := [],
    weekDays := [], startTime := MetaHourly, endTime := "" }

/-- Shallow embedding of NewTpReader (tp_reader.go, lines 61-107): Init
followed by insertion of the four sentinel timing tags. -/
def NewTpReader : TpReaderState :=
  let tpr := TpReader.Init
  { tpr with
    timings := (((tpr.timings.insertKV ANY anyTiming).insertKV ASAP
        asapTiming).insertKV MetaEveryMinute everyMinuteTiming).insertKV
        MetaHourly hourlyTiming }

/-- Claim C7: after initialization of a reader (Init invoked by NewTpReader,
which then seeds the sentinel tags before any source row is read), the
timings map holds, under the tag *asap, a timing whose start time is the
immediate-execution sentinel and whose year/month/month-day/week-day
calendar sets are all empty; the constructed state reads no source rows, so
this holds in particular with zero timing rows from the source. -/
theorem init_asap_timing :
    NewTpReader.timings.lookup ASAP
      = some { id := ASAP, years := [], months := [], monthDays := [],
               weekDays := [], startTime := ASAP, endTime := "" } := by
  decide

/-- Modelled from the spec: MapTPTimings, the Entity Mapper for timing rows,
keys the rows by tag (a later row with the same tag overwrites an earlier
one); its body is not part of the provided source. -/
def MapTPTimings (rows : List TPTiming) : AMap TPTiming :=
  rows.foldl (fun m t => m.insertKV t.id t) AMap.empty

/-- Shallow embedding of TpReader.LoadTimings (tp_reader.go, lines 171-197):
the timings map is replaced wholesale by the mapped source rows, then the
*any and *asap sentinel definitions are written over whatever those tags
held.  The source read is injected as the row list. -/
def LoadTimings (st : TpReaderState) (rows : List TPTiming) : TpReaderState :=
  let m := MapTPTimings rows
  let m := m.insertKV ANY anyTiming
  let m := m.insertKV ASAP asapTiming
  { st with timings := m }

theorem lookup_foldl_insert_none (rows : List TPTiming) (m : AMap TPTiming)
    (key : String) (hm : m.lookup key = none) (h : ∀ r ∈ rows, r.id ≠ key) :
    (rows.foldl (fun m t => m.insertKV t.id t) m).lookup key = none := by
  induction rows generalizing m with
  | nil => exact hm
  | cons r rest ih =>
    simp only [List.foldl_cons]
    refine ih (m.insertKV r.id r) ?_ fun t ht => h t (List.mem_cons_of_mem r ht)
    rw [AMap.lookup_insertKV_ne m r (h r (List.mem_cons_self r rest))]
    exact hm

/-- Claim C10: after LoadTimings, the timings map holds the fixed *any
sentinel (empty calendar sets, start time 00:00:00) and the fixed *asap
sentinel (empty calendar sets, start time equal to the sentinel) whatever
rows the source provided for those tags, while the *every_minute and
*hourly tags are not re-added: when no source row carries them they are
absent, even though NewTpReader had seeded them. -/
theorem loadTimings_sentinels (st : TpReaderState) (rows : List TPTiming) :
    (LoadTimings st rows).timings.lookup ANY
        = some { id := ANY, years := [], months := [], monthDays := [],
                 weekDays := [], startTime := "00:00:00", endTime := "" }
    ∧ (LoadTimings st rows).timings.lookup ASAP
        = some { id := ASAP, years := [], months := [], monthDays := [],
                 weekDays := [], startTime := ASAP, endTime := "" }
    ∧ ((∀ r ∈ rows, r.id ≠ MetaEveryMinute) →
        (LoadTimings st rows).timings.lookup MetaEveryMinute = none)
    ∧ ((∀ r ∈ rows, r.id ≠ MetaHourly) →
        (LoadTimings st rows).timings.lookup MetaHourly = none) := by
  refine ⟨?_, ?_, ?_, ?_⟩
  · show ((((MapTPTimings rows).insertKV ANY anyTiming).insertKV ASAP
        asapTiming).lookup ANY) = _
    rw [AMap.lookup_insertKV_ne _ _ (by decide : ASAP ≠ ANY),
      AMap.lookup_insertKV_self]
    rfl
  · show ((((MapTPTimings rows).insertKV ANY anyTiming).insertKV ASAP
        asapTiming).lookup ASAP) = _
    rw [AMap.lookup_insertKV_self]
    rfl
  · intro h
    show ((((MapTPTimings rows).insertKV ANY anyTiming).insertKV ASAP
        asapTiming).lookup MetaEveryMinute) = none
    rw [AMap.lookup_insertKV_ne _ _ (by decide : ASAP ≠ MetaEveryMinute),
      AMap.lookup_insertKV_ne _ _ (by decide : ANY ≠ MetaEveryMinute)]
    exact lookup_foldl_insert_none rows AMap.empty MetaEveryMinute rfl h
  · intro h
    show ((((MapTPTimings rows).insertKV ANY anyTiming).insertKV ASAP
        asapTiming).lookup MetaHourly) = none
    rw [AMap.lookup_insertKV_ne _ _ (by decide : ASAP ≠ MetaHourly),
      AMap.lookup_insertKV_ne _ _ (by decide : ANY ≠ MetaHourly)]
    exact lookup_foldl_insert_none rows AMap.empty MetaHourly rfl h

/-- Witness timing rows: the source even supplies its own *any row, which the
sentinel overwrites; no row carries *every_minute or *hourly. -/
def timingRowsW : List TPTiming :=
  [{ id := "*any", years := [], months := [3], monthDays := [], weekDays := [],
     startTime := "08:00:00", endTime := "" },
   { id := "WORKDAYS", years := [], months := [], monthDays := [],
     weekDays := [1, 2, 3, 4, 5], startTime := "00:00:00", endTime := "" }]

theorem loadTimings_sentinels_witness :
    (LoadTimings NewTpReader timingRowsW).timings.lookup ANY
        = some { id := ANY, years := [], months := [], monthDays := [],
                 weekDays := [], startTime := "00:00:00", endTime := "" }
    ∧ (LoadTimings NewTpReader timingRowsW).timings.lookup MetaEveryMinute = none :=
  ⟨(loadTimings_sentinels NewTpReader timingRowsW).1,
   (loadTimings_sentinels NewTpReader timingRowsW).2.2.1 (by decide)⟩

/-- Persistent-store boundary (DataDB) as consumed by the loaders: the
HasData(prefix, tag) existence probe, split per entity-kind prefix. -/
structure DataDB where
  hasDestinationData : String → Bool
  hasRatingPlanData : String → Bool
  hasActionsData : String → Bool

/-- Errors raised by LoadDestinationRates. -/
inductive DRErr where
  | noRate (id : String)
  | noDestination (id : String)
  deriving DecidableEq, Repr

/-- Error messages produced by the fmt.Errorf calls of LoadDestinationRates. -/
def DRErr.message : DRErr → String
  | .noRate id => "could not find rate for tag " ++ id
  | .noDestination id => "could not get destination for tag " ++ id

/-- Shallow embedding of the per-entry body of the resolution loop of
TpReader.LoadDestinationRates (tp_reader.go, lines 217-237): the rate id is
looked up in the in-memory rates map only; the destination id passes when it
is the *any sentinel or is in the in-memory destinations map, and otherwise,
when a store is attached, a HasData existence probe decides.  The first
component logs the destination ids probed against the store. -/
def loadDRItem (rates : AMap TPRate) (dests : AMap Destination)
    (store : Option DataDB) (dr : DestRateItem) :
    List String × Except DRErr DestRateItem :=
  match rates.lookup dr.rateId with
  | none => ([], .error (.noRate dr.rateId))
  | some rate =>
    if decide (dr.destinationId = ANY) || (dests.lookup dr.destinationId).isSome then
      ([], .ok { dr with rate := some rate })
    else
      match store with
      | none => ([], .error (.noDestination dr.destinationId))
      | some db =>
        if db.hasDestinationData dr.destinationId then
          ([dr.destinationId], .ok { dr with rate := some rate })
        else ([dr.destinationId], .error (.noDestination dr.destinationId))

/-- Resolution loop over the entries of one destination-rate group. -/
def loadDRItems (rates : AMap TPRate) (dests : AMap Destination)
    (store : Option DataDB) :
    List DestRateItem → List String × Except DRErr (List DestRateItem)
  | [] => ([], .ok [])
  | dr :: rest =>
    match loadDRItem rates dests store dr with
    | (ps, .error e) => (ps, .error e)
    | (ps, .ok dr') =>
      match loadDRItems rates dests store rest with
      | (ps', .error e) => (ps ++ ps', .error e)
      | (ps', .ok drs') => (ps ++ ps', .ok (dr' :: drs'))

/-- Shallow embedding of TpReader.LoadDestinationRates (tp_reader.go, lines
208-239) after the mapping step: the outer loop over the mapped groups,
returning the probe log and either the first error or the groups with rates
resolved in place. -/
def LoadDestinationRates (rates : AMap TPRate) (dests : AMap Destination)
    (store : Option DataDB) :
    List TPDestinationRate → List String × Except DRErr (List TPDestinationRate)
  | [] => ([], .ok [])
  | g :: rest =>
    match loadDRItems rates dests store g.destinationRates with
    | (ps, .error e) => (ps, .error e)
    | (ps, .ok items) =>
      match LoadDestinationRates rates dests store rest with
      | (ps', .error e) => (ps ++ ps', .error e)
      | (ps', .ok gs) => (ps ++ ps', .ok ({ g with destinationRates := items } :: gs))

/-- Witness rates map holding the single rate tag R1. -/
def ratesW : AMap TPRate := [("R1", { id := "R1", slots := [] })]

/-- Witness destination-rate input: one group binding destination D1 to rate
R1, with D1 absent from the in-memory destinations map. -/
def drsW : List TPDestinationRate :=
  [{ id := "DR_X",
     destinationRates := [{ destinationId := "D1", rateId := "R1", rate := none }] }]

/-- Witness store: it holds destination data for D1 and nothing else. -/
def dbW : DataDB :=
  { hasDestinationData := fun s => decide (s = "D1"),
    hasRatingPlanData := fun _ => false,
    hasActionsData := fun _ => false }

/-- Counterexample to claim C2 as stated: during the load-all step
LoadDestinationRates, with destination D1 absent from the in-memory maps, a
HasData existence probe for D1 is issued against the attached persistent
store (probe log ["D1"]) and the reference resolves from the store, while
the same call with no store attached fails; the persistent store is
therefore consulted, and decisive, during a load-all call. -/
theorem loadDestinationRates_consults_store :
    (LoadDestinationRates ratesW [] (some dbW) drsW).1 = ["D1"]
    ∧ (LoadDestinationRates ratesW [] (some dbW) drsW).2
        = .ok [{ id := "DR_X",
                 destinationRates := [{ destinationId := "D1", rateId := "R1",
                                        rate := some { id := "R1", slots := [] } }] }]
    ∧ (LoadDestinationRates ratesW [] none drsW).2 = .error (.noDestination "D1") := by
  decide

/-- Boolean success test on an Except result. -/
def exceptIsOk {ε α : Type} : Except ε α → Bool
  | .ok _ => true
  | .error _ => false

/-- Rating-plan activation row of a rating profile (utils.TPRatingActivation
as consumed by LoadRatingProfiles): the raw activation timestamp and the
referenced rating-plan tag.  The fallback-subject and stat-queue fields are
string-derived and not load-bearing for the claims. -/
structure RPARow where
  activationTime : String
  ratingPlanId : String
  deriving DecidableEq, Repr

/-- Resolved rating-plan activation (engine RatingPlanActivation, the fields
the claims touch): parsed activation time and the rating-plan tag. -/
structure RatingPlanActivation where
  activationTime : Int
  ratingPlanId : String
  deriving DecidableEq, Repr

/-- Rating profile as built by LoadRatingProfiles. -/
structure RatingProfile where
  id : String
  ratingPlanActivations : List RatingPlanActivation
  deriving DecidableEq, Repr

/-- Mapped rating-profile row (utils.TPRatingProfile after
MapTPRatingProfiles): the composite profile key and its activation rows. -/
structure TPRatingProfileRow where
  keyId : String
  activations : List RPARow
  deriving DecidableEq, Repr

/-- Errors raised by LoadRatingProfiles. -/
inductive RPErr where
  | badActivationTime (t : String)
  | noRatingPlan (id : String)
  deriving DecidableEq, Repr

/-- Error messages produced by the fmt.Errorf calls of LoadRatingProfiles. -/
def RPErr.message : RPErr → String
  | .badActivationTime t => "cannot parse activation time from " ++ t
  | .noRatingPlan id => "could not load rating plans for tag: " ++ id

/-- Shallow embedding of the per-activation body of the LoadRatingProfiles
loop (tp_reader.go, lines 404-425): parse the activation time
(utils.ParseDate is injected as parseDate, none meaning a parse failure),
then resolve the rating-plan tag against the in-memory ratingPlans map
first, falling back to the store's HasData existence probe when a store is
attached; both missing fails the profile.  The first component logs the
rating-plan ids probed against the store. -/
def loadRPActivation (parseDate : String → Option Int)
    (ratingPlans : AMap RatingPlan) (store : Option DataDB) (ra : RPARow) :
    List String × Except RPErr RatingPlanActivation :=
  match parseDate ra.activationTime with
  | none => ([], .error (.badActivationTime ra.activationTime))
  | some t =>
    if (ratingPlans.lookup ra.ratingPlanId).isSome then
      ([], .ok { activationTime := t, ratingPlanId := ra.ratingPlanId })
    else
      match store with
      | none => ([], .error (.noRatingPlan ra.ratingPlanId))
      | some db =>
        if db.hasRatingPlanData ra.ratingPlanId then
          ([ra.ratingPlanId], .ok { activationTime := t, ratingPlanId := ra.ratingPlanId })
        else ([ra.ratingPlanId], .error (.noRatingPlan ra.ratingPlanId))

/-- Activation loop of one rating profile. -/
def loadRPActivations (parseDate : String → Option Int)
    (ratingPlans : AMap RatingPlan) (store : Option DataDB) :
    List RPARow → List String × Except RPErr (List RatingPlanActivation)
  | [] => ([], .ok [])
  | ra :: rest =>
    match loadRPActivation parseDate ratingPlans store ra with
    | (ps, .error e) => (ps, .error e)
    | (ps, .ok act) =>
      match loadRPActivations parseDate ratingPlans store rest with
      | (ps', .error e) => (ps ++ ps', .error e)
      | (ps', .ok acts) => (ps ++ ps', .ok (act :: acts))

/-- Shallow embedding of TpReader.LoadRatingProfiles (tp_reader.go, lines
393-429) after the mapping step: each profile's activations are resolved and
the built profile is registered under its key; the first error stops the
call. -/
def LoadRatingProfiles (parseDate : String → Option Int)
    (ratingPlans : AMap RatingPlan) (store : Option DataDB) :
    AMap RatingProfile → List TPRatingProfileRow →
    List String × Except RPErr (AMap RatingProfile)
  | profiles, [] => ([], .ok profiles)
  | profiles, row :: rest =>
    match loadRPActivations parseDate ratingPlans store row.activations with
    | (ps, .error e) => (ps, .error e)
    | (ps, .ok acts) =>
      match LoadRatingProfiles parseDate ratingPlans store
          (profiles.insertKV row.keyId
            { id := row.keyId, ratingPlanActivations := acts }) rest with
      | (ps', r) => (ps ++ ps', r)

/-- Billing action, modelled by its identity only: LoadActionPlans references
the actions map solely by tag lookup, none of the operation fields is
load-bearing here. -/
structure Action where
  id : String
  deriving DecidableEq, Repr

/-- Mapped action-plan row (one action timing of MapTPActionTimings' output,
as consumed by LoadActionPlans): the plan tag, the actions tag, the timing
tag and the weight. -/
structure APRow where
  tag : String
  actionsId : String
  timingId : String
  weight : Rat
  deriving DecidableEq, Repr

/-- Errors raised by LoadActionPlans. -/
inductive APErr where
  | noActions (id : String)
  | noTiming (id : String)
  deriving DecidableEq, Repr

/-- Error messages produced by the fmt.Errorf calls of LoadActionPlans. -/
def APErr.message : APErr → String
  | .noActions id => "[ActionPlans] Could not load the action for tag: " ++ id
  | .noTiming id => "[ActionPlans] Could not load the timing for tag: " ++ id

/-- Tail of the LoadActionPlans loop body once the actions tag resolved
(tp_reader.go, lines 672-697): the timing tag is looked up in the in-memory
timings map only (no store fallback), and the action timing — carrying the
timing's calendar pattern with no end time, per the field-by-field copy at
lines 685-693 — is appended to the plan's list (a fresh plan is created for
an unseen tag).  The Uuid field is omitted: no claim mentions it. -/
def loadAPRowCore (timings : AMap TPTiming) (actionPlans : AMap ActionPlan)
    (row : APRow) : Except APErr (AMap ActionPlan) :=
  match timings.lookup row.timingId with
  | none => .error (.noTiming row.timingId)
  | some t =>
    let ri : RITiming := { years := t.years, months := t.months,
                           monthDays := t.monthDays, weekDays := t.weekDays,
                           startTime := t.startTime, endTime := "" }
    let newAt : ActionTiming := { weight := row.weight,
                                  timing := some { timing := ri, weight := 0, rates := [] },
                                  actionsID := row.actionsId }
    let actPln := (actionPlans.lookup row.tag).getD
      { id := row.tag, actionTimings := [], accountIDs := [] }
    .ok (actionPlans.insertKV row.tag
      { actPln with actionTimings := actPln.actionTimings ++ [newAt] })

/-- Shallow embedding of the per-row body of the LoadActionPlans loop
(tp_reader.go, lines 661-697): the actions tag is resolved against the
in-memory actions map first, falling back to the store's HasData existence
probe when a store is attached, both missing failing the row; then the core
above runs.  The first component logs the action ids probed against the
store. -/
def loadAPRow (actions : AMap (List Action)) (timings : AMap TPTiming)
    (store : Option DataDB) (actionPlans : AMap ActionPlan) (row : APRow) :
    List String × Except APErr (AMap ActionPlan) :=
  if (actions.lookup row.actionsId).isSome then
    ([], loadAPRowCore timings actionPlans row)
  else
    match store with
    | none => ([], .error (.noActions row.actionsId))
    | some db =>
      if db.hasActionsData row.actionsId then
        ([row.actionsId], loadAPRowCore timings actionPlans row)
      else ([row.actionsId], .error (.noActions row.actionsId))

/-- Shallow embedding of TpReader.LoadActionPlans (tp_reader.go, lines
654-701) after the mapping step: the rows are processed in order threading
the actionPlans map, the first error stopping the call. -/
def LoadActionPlans (actions : AMap (List Action)) (timings : AMap TPTiming)
    (store : Option DataDB) :
    AMap ActionPlan → List APRow → List String × Except APErr (AMap ActionPlan)
  | actionPlans, [] => ([], .ok actionPlans)
  | actionPlans, row :: rest =>
    match loadAPRow actions timings store actionPlans row with
    | (ps, .error e) => (ps, .error e)
    | (ps, .ok actionPlans') =>
      match LoadActionPlans actions timings store actionPlans' rest with
      | (ps', r) => (ps ++ ps', r)

/-- Claim C2 as amended: in the load-all steps the forward references that
fall back to the store resolve in-memory first and then — when a persistent
store is attached — by a HasData existence probe, failing only when both
miss: destination references in LoadDestinationRates resolve exactly when
the id is the *any sentinel, in the in-memory destinations map, or reported
by the probe; rating-plan references in LoadRatingProfiles and action
references in LoadActionPlans resolve exactly when in the respective
in-memory map or reported by the probe.  Rate references in
LoadDestinationRates, by contrast, are resolved strictly against the
in-memory rates map, with no store fallback. -/
theorem loadDestinationRates_resolution_policy :
    (∀ (rates : AMap TPRate) (dests : AMap Destination) (store : Option DataDB)
        (dr : DestRateItem) (rate : TPRate),
      rates.lookup dr.rateId = some rate →
        ((loadDRItem rates dests store dr).2 = .ok { dr with rate := some rate }
          ↔ (dr.destinationId = ANY ∨ (dests.lookup dr.destinationId).isSome = true
              ∨ (∃ db, store = some db ∧ db.hasDestinationData dr.destinationId = true))))
    ∧ (∀ (rates : AMap TPRate) (dests : AMap Destination) (store : Option DataDB)
        (dr : DestRateItem),
      rates.lookup dr.rateId = none →
        loadDRItem rates dests store dr = ([], .error (.noRate dr.rateId)))
    ∧ (∀ (parseDate : String → Option Int) (ratingPlans : AMap RatingPlan)
        (store : Option DataDB) (ra : RPARow) (t : Int),
      parseDate ra.activationTime = some t →
        ((loadRPActivation parseDate ratingPlans store ra).2
            = .ok { activationTime := t, ratingPlanId := ra.ratingPlanId }
          ↔ ((ratingPlans.lookup ra.ratingPlanId).isSome = true
              ∨ (∃ db, store = some db ∧ db.hasRatingPlanData ra.ratingPlanId = true))))
    ∧ (∀ (actions : AMap (List Action)) (timings : AMap TPTiming)
        (store : Option DataDB) (actionPlans : AMap ActionPlan) (row : APRow),
      (timings.lookup row.timingId).isSome = true →
        (exceptIsOk (loadAPRow actions timings store actionPlans row).2 = true
          ↔ ((actions.lookup row.actionsId).isSome = true
              ∨ (∃ db, store = some db ∧ db.hasActionsData row.actionsId = true)))) := by
  refine ⟨?_, ?_, ?_, ?_⟩
  · intro rates dests store dr rate hrate
    unfold loadDRItem
    rw [hrate]
    dsimp only
    by_cases hany : dr.destinationId = ANY
    · rw [if_pos (by simp [hany])]
      simp [hany]
    · cases hmem : (dests.lookup dr.destinationId).isSome with
      | true =>
        rw [if_pos (by simp [hmem])]
        simp [hmem]
      | false =>
        rw [if_neg (by simp [hany, hmem])]
        cases store with
        | none => simp [hany, hmem]
        | some db =>
          dsimp only
          cases hprobe : db.hasDestinationData dr.destinationId with
          | true => simp [hany, hmem, hprobe]
          | false => simp [hany, hmem, hprobe]
  · intro rates dests store dr hrate
    unfold loadDRItem
    rw [hrate]
  · intro parseDate ratingPlans store ra t hpd
    unfold loadRPActivation
    rw [hpd]
    dsimp only
    cases hmem : (ratingPlans.lookup ra.ratingPlanId).isSome with
    | true => simp [hmem]
    | false =>
      cases store with
      | none => simp [hmem]
      | some db =>
        dsimp only
        cases hprobe : db.hasRatingPlanData ra.ratingPlanId with
        | true => simp [hmem, hprobe]
        | false => simp [hmem, hprobe]
  · intro actions timings store actionPlans row htm
    obtain ⟨t, ht⟩ := Option.isSome_iff_exists.mp htm
    have hcore : exceptIsOk (loadAPRowCore timings actionPlans row) = true := by
      unfold loadAPRowCore
      rw [ht]
      rfl
    unfold loadAPRow
    cases hmem : (actions.lookup row.actionsId).isSome with
    | true => simp [hmem, hcore]
    | false =>
      cases store with
      | none => simp [hmem, exceptIsOk]
      | some db =>
        dsimp only
        cases hprobe : db.hasActionsData row.actionsId with
        | true => simp [hmem, hprobe, hcore]
        | false => simp [hmem, hprobe, exceptIsOk]

/-- Witness store for the rating-plan and actions probes of the amended C2
theorem: it holds rating-plan data for RP1 and actions data for TOPUP_ACTS. -/
def dbW2 : DataDB :=
  { hasDestinationData := fun _ => false,
    hasRatingPlanData := fun s => decide (s = "RP1"),
    hasActionsData := fun s => decide (s = "TOPUP_ACTS") }

/-- Witness date parser for the amended C2 theorem. -/
def parseDateW : String → Option Int :=
  fun s => if s = "2014-01-14T00:00:00Z" then some 1389657600 else none

/-- Witness activation row for the amended C2 theorem: rating-plan RP1 is
absent from the in-memory map and resolves from the store. -/
def raW : RPARow :=
  { activationTime := "2014-01-14T00:00:00Z", ratingPlanId := "RP1" }

/-- Witness action-plan row for the amended C2 theorem: actions tag
TOPUP_ACTS is absent from the in-memory map and resolves from the store;
timing T1 is in memory. -/
def apRowW : APRow :=
  { tag := "AP_W", actionsId := "TOPUP_ACTS", timingId := "T1", weight := 10 }

/-- Witness timings map for the amended C2 theorem. -/
def timingsW : AMap TPTiming :=
  [("T1", { id := "T1", years := [], months := [], monthDays := [],
            weekDays := [], startTime := "00:00:00", endTime := "" })]

theorem loadDestinationRates_resolution_policy_witness :
    ratesW.lookup "R1" = some { id := "R1", slots := [] }
    ∧ ((loadDRItem ratesW [] (some dbW)
          { destinationId := "D1", rateId := "R1", rate := none }).2
        = .ok { destinationId := "D1", rateId := "R1",
                rate := some { id := "R1", slots := [] } })
    ∧ ((loadRPActivation parseDateW [] (some dbW2) raW).2
        = .ok { activationTime := 1389657600, ratingPlanId := "RP1" })
    ∧ exceptIsOk (loadAPRow [] timingsW (some dbW2) [] apRowW).2 = true :=
  ⟨by decide,
    (loadDestinationRates_resolution_policy.1 ratesW [] (some dbW)
        { destinationId := "D1", rateId := "R1", rate := none }
        { id := "R1", slots := [] } (by decide)).mpr
      (Or.inr (Or.inr ⟨dbW, rfl, by decide⟩)),
    (loadDestinationRates_resolution_policy.2.2.1 parseDateW [] (some dbW2) raW
        1389657600 (by decide)).mpr
      (Or.inr ⟨dbW2, rfl, by decide⟩),
    (loadDestinationRates_resolution_policy.2.2.2 [] timingsW (some dbW2) [] apRowW
        (by decide)).mpr
      (Or.inr ⟨dbW2, rfl, by decide⟩)⟩

/-- General insertKV/lookup characterization. -/
theorem AMap.lookup_insertKV {α : Type} (m : AMap α) (k k' : String) (v : α) :
    (m.insertKV k v).lookup k' = if k = k' then some v else m.lookup k' := by
  by_cases h : k = k'
  · subst h
    rw [AMap.lookup_insertKV_self, if_pos rfl]
  · rw [AMap.lookup_insertKV_ne m v h, if_neg h]

/-- Inserting at a key that is already bound leaves the isSome status of
every lookup unchanged. -/
theorem AMap.lookup_insertKV_isSome_eq {α : Type} (m : AMap α) {k : String}
    {w : α} (hk : m.lookup k = some w) (v : α) (p : String) :
    ((m.insertKV k v).lookup p).isSome = (m.lookup p).isSome := by
  rw [AMap.lookup_insertKV]
  by_cases h : k = p
  · subst h
    rw [if_pos rfl, hk]
    rfl
  · rw [if_neg h]

/-- Mapped account-action row (utils.TPAccountActions after
MapTPAccountActions).  keyId is the composite account key (the Go KeyId
method, modelled from the spec as a precomputed field). -/
structure AARow where
  keyId : String
  actionPlanId : String
  actionTriggersId : String
  allowNegative : Bool
  disabled : Bool
  deriving DecidableEq, Repr

/-- Errors raised by LoadAccountActions. -/
inductive AAErr where
  | duplicateAccount (key : String)
  | noActionTriggers (tag : String)
  | noActionPlan (tag : String)
  deriving DecidableEq, Repr

/-- Error messages produced by the fmt.Errorf calls of LoadAccountActions. -/
def AAErr.message : AAErr → String
  | .duplicateAccount k => "duplicate account action found: " ++ k
  | .noActionTriggers t => "could not get action triggers for tag " ++ t
  | .noActionPlan t => "could not get action plan for tag " ++ t

/-- Shallow embedding of the loop body of TpReader.LoadAccountActions
(tp_reader.go, lines 1145-1180) for one row: duplicate-key check against the
accountActions map, action-trigger resolution (empty tag means no triggers),
account construction with InitCounters, insertion, and — for a non-empty
action-plan tag — binding of the account into the plan's bound-account set
and into the account-to-action-plan reverse index.  The state is returned
alongside the optional error, as the Go receiver is mutated in place. -/
def mkAccount (aa : AARow) (tri : List ActionTrigger) : Account :=
  { id := aa.keyId, actionTriggers := tri, allowNegative := aa.allowNegative,
    disabled := aa.disabled, countersInited := true }

/-- Bound-account set of an action plan after the Go set-insert
AccountIDs[key] = true. -/
def ActionPlan.bindAccount (ap : ActionPlan) (key : String) : ActionPlan :=
  { ap with accountIDs :=
      if key ∈ ap.accountIDs then ap.accountIDs else ap.accountIDs ++ [key] }

/-- Tail of loadAARow once the duplicate check passed and the triggers
resolved: account insertion and optional action-plan binding. -/
def loadAARowCore (st : TpReaderState) (aa : AARow) (aTriggers : List ActionTrigger) :
    TpReaderState × Option AAErr :=
  let st1 := { st with
               accountActions := st.accountActions.insertKV aa.keyId (mkAccount aa aTriggers) }
  if aa.actionPlanId = "" then (st1, none)
  else
    match st1.actionPlans.lookup aa.actionPlanId with
    | none => (st1, some (.noActionPlan aa.actionPlanId))
    | some ap =>
      let st2 := { st1 with
                   actionPlans := st1.actionPlans.insertKV aa.actionPlanId
                     (ap.bindAccount aa.keyId),
                   acntActionPlans := st1.acntActionPlans.insertKV aa.keyId
                     (((st1.acntActionPlans.lookup aa.keyId).getD [])
                       ++ [aa.actionPlanId]) }
      (st2, none)

def loadAARow (st : TpReaderState) (aa : AARow) : TpReaderState × Option AAErr :=
  if (st.accountActions.lookup aa.keyId).isSome then
    (st, some (.duplicateAccount aa.keyId))
  else
    match (if aa.actionTriggersId = "" then some ([] : List ActionTrigger)
           else st.actionsTriggers.lookup aa.actionTriggersId) with
    | none => (st, some (.noActionTriggers aa.actionTriggersId))
    | some aTriggers => loadAARowCore st aa aTriggers

/-- Shallow embedding of TpReader.LoadAccountActions after the mapping step:
the rows are processed in order, the first error stops the loop. -/
def LoadAccountActions (st : TpReaderState) : List AARow → TpReaderState × Option AAErr
  | [] => (st, none)
  | aa :: rest =>
    match loadAARow st aa with
    | (st', none) => LoadAccountActions st' rest
    | (st', some e) => (st', some e)

/-- References of one account-action row resolve against the given state:
the trigger tag is empty or bound, and the plan tag is empty or bound. -/
def rowRefsOk (st : TpReaderState) (aa : AARow) : Prop :=
  (aa.actionTriggersId = "" ∨ (st.actionsTriggers.lookup aa.actionTriggersId).isSome = true)
  ∧ (aa.actionPlanId = "" ∨ (st.actionPlans.lookup aa.actionPlanId).isSome = true)

instance (st : TpReaderState) (aa : AARow) : Decidable (rowRefsOk st aa) := by
  unfold rowRefsOk
  infer_instance

theorem mem_bindAccount_self (ap : ActionPlan) (key : String) :
    key ∈ (ap.bindAccount key).accountIDs := by
  unfold ActionPlan.bindAccount
  by_cases hin : key ∈ ap.accountIDs
  · simp [hin]
  · simp only [hin, if_false]
    exact List.mem_append_right _ (List.mem_singleton.mpr rfl)

theorem mem_bindAccount_of_mem (ap : ActionPlan) (key a : String)
    (h : a ∈ ap.accountIDs) : a ∈ (ap.bindAccount key).accountIDs := by
  unfold ActionPlan.bindAccount
  by_cases hin : key ∈ ap.accountIDs
  · simpa [hin]
  · simp only [hin, if_false]
    exact List.mem_append_left _ h

theorem loadAARow_fresh (st : TpReaderState) (aa : AARow)
    (hfresh : st.accountActions.lookup aa.keyId = none) (hrefs : rowRefsOk st aa) :
    ∃ st' : TpReaderState, loadAARow st aa = (st', none)
    ∧ (∃ tri, st'.accountActions.lookup aa.keyId = some (mkAccount aa tri))
    ∧ (∀ k, k ≠ aa.keyId → st'.accountActions.lookup k = st.accountActions.lookup k)
    ∧ st'.actionsTriggers = st.actionsTriggers
    ∧ (∀ p, ((st'.actionPlans.lookup p).isSome = (st.actionPlans.lookup p).isSome))
    ∧ (∀ p ap a, st.actionPlans.lookup p = some ap → a ∈ ap.accountIDs →
        ∃ ap', st'.actionPlans.lookup p = some ap' ∧ a ∈ ap'.accountIDs)
    ∧ (∀ k x l, st.acntActionPlans.lookup k = some l → x ∈ l →
        ∃ l', st'.acntActionPlans.lookup k = some l' ∧ x ∈ l')
    ∧ (aa.actionPlanId ≠ "" →
        (∃ ap', st'.actionPlans.lookup aa.actionPlanId = some ap'
            ∧ aa.keyId ∈ ap'.accountIDs)
        ∧ (∃ l', st'.acntActionPlans.lookup aa.keyId = some l'
            ∧ aa.actionPlanId ∈ l')) := by
  have htri : ∃ aTriggers,
      (if aa.actionTriggersId = "" then some ([] : List ActionTrigger)
       else st.actionsTriggers.lookup aa.actionTriggersId) = some aTriggers := by
    rcases hrefs.1 with h | h
    · exact ⟨[], by rw [if_pos h]⟩
    · by_cases he : aa.actionTriggersId = ""
      · exact ⟨[], by rw [if_pos he]⟩
      · obtain ⟨l, hl⟩ := Option.isSome_iff_exists.mp h
        exact ⟨l, by rw [if_neg he, hl]⟩
  obtain ⟨aTriggers, htri⟩ := htri
  have hbody : loadAARow st aa = loadAARowCore st aa aTriggers := by
    unfold loadAARow
    rw [hfresh, htri]
    simp
  by_cases hplan : aa.actionPlanId = ""
  · refine ⟨{ st with accountActions :=
        st.accountActions.insertKV aa.keyId (mkAccount aa aTriggers) },
      by rw [hbody]; simp only [loadAARowCore, if_pos hplan], ?_, ?_, rfl, ?_, ?_, ?_, ?_⟩
    · exact ⟨aTriggers, by simp [AMap.lookup_insertKV_self]⟩
    · intro k hk
      exact AMap.lookup_insertKV_ne _ _ (fun h => hk h.symm)
    · intro p
      rfl
    · intro p ap a hp ha
      exact ⟨ap, hp, ha⟩
    · intro k x l hk hx
      exact ⟨l, hk, hx⟩
    · intro h
      exact absurd hplan h
  · have hpl : ∃ ap, st.actionPlans.lookup aa.actionPlanId = some ap := by
      rcases hrefs.2 with h | h
      · exact absurd h hplan
      · exact Option.isSome_iff_exists.mp h
    obtain ⟨ap, hap⟩ := hpl
    refine ⟨{ st with
        accountActions := st.accountActions.insertKV aa.keyId (mkAccount aa aTriggers),
        actionPlans := st.actionPlans.insertKV aa.actionPlanId (ap.bindAccount aa.keyId),
        acntActionPlans := st.acntActionPlans.insertKV aa.keyId
          (((st.acntActionPlans.lookup aa.keyId).getD []) ++ [aa.actionPlanId]) },
      by rw [hbody]; simp only [loadAARowCore, if_neg hplan]; rw [hap],
      ?_, ?_, rfl, ?_, ?_, ?_, ?_⟩
    · exact ⟨aTriggers, by simp [AMap.lookup_insertKV_self]⟩
    · intro k hk
      exact AMap.lookup_insertKV_ne _ _ (fun h => hk h.symm)
    · intro p
      exact AMap.lookup_insertKV_isSome_eq st.actionPlans hap _ p
    · intro p ap0 a hp ha
      rw [AMap.lookup_insertKV]
      by_cases hpe : aa.actionPlanId = p
      · subst hpe
        rw [if_pos rfl]
        rw [hap] at hp
        cases hp
        exact ⟨_, rfl, mem_bindAccount_of_mem ap aa.keyId a ha⟩
      · rw [if_neg hpe]
        exact ⟨ap0, hp, ha⟩
    · intro k x l hk hx
      rw [AMap.lookup_insertKV]
      by_cases hke : aa.keyId = k
      · subst hke
        rw [if_pos rfl]
        exact ⟨_, rfl, by rw [hk]; exact List.mem_append_left _ (by simpa using hx)⟩
      · rw [if_neg hke]
        exact ⟨l, hk, hx⟩
    · intro _
      constructor
      · rw [AMap.lookup_insertKV_self]
        exact ⟨_, rfl, mem_bindAccount_self ap aa.keyId⟩
      · rw [AMap.lookup_insertKV_self]
        exact ⟨_, rfl, List.mem_append_right _ (List.mem_singleton.mpr rfl)⟩

theorem loadAccountActions_success (rows : List AARow) :
    ∀ st : TpReaderState,
    (∀ aa ∈ rows, rowRefsOk st aa) →
    (∀ aa ∈ rows, st.accountActions.lookup aa.keyId = none) →
    (rows.map AARow.keyId).Nodup →
    (LoadAccountActions st rows).2 = none
    ∧ (∀ k v, st.accountActions.lookup k = some v →
        (LoadAccountActions st rows).1.accountActions.lookup k = some v)
    ∧ (∀ aa ∈ rows, ∃ tri,
        (LoadAccountActions st rows).1.accountActions.lookup aa.keyId
          = some (mkAccount aa tri))
    ∧ (∀ p ap a, st.actionPlans.lookup p = some ap → a ∈ ap.accountIDs →
        ∃ ap', (LoadAccountActions st rows).1.actionPlans.lookup p = some ap'
          ∧ a ∈ ap'.accountIDs)
    ∧ (∀ k x l, st.acntActionPlans.lookup k = some l → x ∈ l →
        ∃ l', (LoadAccountActions st rows).1.acntActionPlans.lookup k = some l'
          ∧ x ∈ l')
    ∧ (∀ aa ∈ rows, aa.actionPlanId ≠ "" →
        (∃ ap', (LoadAccountActions st rows).1.actionPlans.lookup aa.actionPlanId
            = some ap' ∧ aa.keyId ∈ ap'.accountIDs)
        ∧ (∃ l', (LoadAccountActions st rows).1.acntActionPlans.lookup aa.keyId
            = some l' ∧ aa.actionPlanId ∈ l')) := by
  induction rows with
  | nil =>
    intro st hrefs hfresh hnodup
    refine ⟨rfl, fun k v h => h, by simp, fun p ap a hp ha => ⟨ap, hp, ha⟩,
      fun k x l hk hx => ⟨l, hk, hx⟩, by simp⟩
  | cons aa rest ih =>
    intro st hrefs hfresh hnodup
    obtain ⟨st', heq, ⟨tri0, hacct⟩, hunch, htrieq, hplanSome, hplanMono, hacntMono, hbind⟩ :=
      loadAARow_fresh st aa (hfresh aa (List.mem_cons_self aa rest))
        (hrefs aa (List.mem_cons_self aa rest))
    have hstep : LoadAccountActions st (aa :: rest) = LoadAccountActions st' rest := by
      simp only [LoadAccountActions, heq]
    have hnotin : aa.keyId ∉ rest.map AARow.keyId := (List.nodup_cons.mp hnodup).1
    have hrefs' : ∀ r ∈ rest, rowRefsOk st' r := by
      intro r hr
      obtain ⟨h1, h2⟩ := hrefs r (List.mem_cons_of_mem aa hr)
      refine ⟨?_, ?_⟩
      · rw [htrieq]
        exact h1
      · rcases h2 with h2 | h2
        · exact Or.inl h2
        · exact Or.inr (by rw [hplanSome]; exact h2)
    have hfresh' : ∀ r ∈ rest, st'.accountActions.lookup r.keyId = none := by
      intro r hr
      have hne : r.keyId ≠ aa.keyId := by
        intro hcontra
        exact hnotin (hcontra ▸ List.mem_map_of_mem AARow.keyId hr)
      rw [hunch r.keyId hne]
      exact hfresh r (List.mem_cons_of_mem aa hr)
    obtain ⟨ih1, ih2, ih3, ih4, ih5, ih6⟩ :=
      ih st' hrefs' hfresh' (List.nodup_cons.mp hnodup).2
    rw [hstep]
    refine ⟨ih1, ?_, ?_, ?_, ?_, ?_⟩
    · intro k v hv
      have hne : k ≠ aa.keyId := by
        intro hcontra
        rw [hcontra, hfresh aa (List.mem_cons_self aa rest)] at hv
        cases hv
      exact ih2 k v (by rw [hunch k hne]; exact hv)
    · intro r hr
      rcases List.mem_cons.mp hr with hhead | htail
      · subst hhead
        exact ⟨tri0, ih2 _ _ hacct⟩
      · exact ih3 r htail
    · intro p ap a hp ha
      obtain ⟨ap', hap', ha'⟩ := hplanMono p ap a hp ha
      exact ih4 p ap' a hap' ha'
    · intro k x l hk hx
      obtain ⟨l', hl', hx'⟩ := hacntMono k x l hk hx
      exact ih5 k x l' hl' hx'
    · intro r hr hne
      rcases List.mem_cons.mp hr with hhead | htail
      · subst hhead
        obtain ⟨⟨ap', hap', hmem⟩, ⟨l', hl', hmem'⟩⟩ := hbind hne
        exact ⟨ih4 _ ap' _ hap' hmem, ih5 _ _ l' hl' hmem'⟩
      · exact ih6 r htail hne

theorem loadAccountActions_dup_hit (rows : List AARow) :
    ∀ st : TpReaderState,
    (∀ aa ∈ rows, rowRefsOk st aa) →
    (∃ aa ∈ rows, (st.accountActions.lookup aa.keyId).isSome = true) →
    ∃ k, (LoadAccountActions st rows).2 = some (.duplicateAccount k) := by
  induction rows with
  | nil =>
    intro st _ hw
    simp at hw
  | cons aa rest ih =>
    intro st hrefs hw
    by_cases hself : (st.accountActions.lookup aa.keyId).isSome = true
    · have hrow : loadAARow st aa = (st, some (.duplicateAccount aa.keyId)) := by
        unfold loadAARow
        rw [if_pos hself]
      refine ⟨aa.keyId, ?_⟩
      simp only [LoadAccountActions, hrow]
    · have hfreshA : st.accountActions.lookup aa.keyId = none :=
        Option.not_isSome_iff_eq_none.mp hself
      obtain ⟨st', heq, ⟨tri0, hacct⟩, hunch, htrieq, hplanSome, _, _, _⟩ :=
        loadAARow_fresh st aa hfreshA (hrefs aa (List.mem_cons_self aa rest))
      have hstep : LoadAccountActions st (aa :: rest) = LoadAccountActions st' rest := by
        simp only [LoadAccountActions, heq]
      obtain ⟨w, hwmem, hwsome⟩ := hw
      rcases List.mem_cons.mp hwmem with hhead | htail
      · subst hhead
        rw [hfreshA] at hwsome
        cases hwsome
      · have hrefs' : ∀ r ∈ rest, rowRefsOk st' r := by
          intro r hr
          obtain ⟨h1, h2⟩ := hrefs r (List.mem_cons_of_mem aa hr)
          refine ⟨?_, ?_⟩
          · rw [htrieq]
            exact h1
          · rcases h2 with h2 | h2
            · exact Or.inl h2
            · exact Or.inr (by rw [hplanSome]; exact h2)
        have hwne : w.keyId ≠ aa.keyId := by
          intro hcontra
          rw [hcontra, hfreshA] at hwsome
          cases hwsome
        rw [hstep]
        exact ih st' hrefs' ⟨w, htail, by rw [hunch w.keyId hwne]; exact hwsome⟩

theorem loadAccountActions_dup_of_repeat (rows : List AARow) :
    ∀ st : TpReaderState,
    (∀ aa ∈ rows, rowRefsOk st aa) →
    (∀ aa ∈ rows, st.accountActions.lookup aa.keyId = none) →
    ¬ (rows.map AARow.keyId).Nodup →
    ∃ k, (LoadAccountActions st rows).2 = some (.duplicateAccount k) := by
  induction rows with
  | nil =>
    intro st _ _ hdup
    simp at hdup
  | cons aa rest ih =>
    intro st hrefs hfresh hdup
    obtain ⟨st', heq, ⟨tri0, hacct⟩, hunch, htrieq, hplanSome, _, _, _⟩ :=
      loadAARow_fresh st aa (hfresh aa (List.mem_cons_self aa rest))
        (hrefs aa (List.mem_cons_self aa rest))
    have hstep : LoadAccountActions st (aa :: rest) = LoadAccountActions st' rest := by
      simp only [LoadAccountActions, heq]
    have hrefs' : ∀ r ∈ rest, rowRefsOk st' r := by
      intro r hr
      obtain ⟨h1, h2⟩ := hrefs r (List.mem_cons_of_mem aa hr)
      refine ⟨?_, ?_⟩
      · rw [htrieq]
        exact h1
      · rcases h2 with h2 | h2
        · exact Or.inl h2
        · exact Or.inr (by rw [hplanSome]; exact h2)
    by_cases hmem : aa.keyId ∈ rest.map AARow.keyId
    · obtain ⟨w, hwmem, hwkey⟩ := List.mem_map.mp hmem
      rw [hstep]
      refine loadAccountActions_dup_hit rest st' hrefs' ⟨w, hwmem, ?_⟩
      rw [hwkey, hacct]
      rfl
    · have hfresh' : ∀ r ∈ rest, st'.accountActions.lookup r.keyId = none := by
        intro r hr
        have hne : r.keyId ≠ aa.keyId := by
          intro hcontra
          exact hmem (hcontra ▸ List.mem_map_of_mem AARow.keyId hr)
        rw [hunch r.keyId hne]
        exact hfresh r (List.mem_cons_of_mem aa hr)
      have hdup' : ¬ (rest.map AARow.keyId).Nodup := by
        intro hcontra
        exact hdup (List.nodup_cons.mpr ⟨hmem, hcontra⟩)
      rw [hstep]
      exact ih st' hrefs' hfresh' hdup'

/-- Claim C5: in one pass over otherwise well-formed account-action rows (all
trigger and plan references resolvable, no account key pre-registered), two
rows sharing an account key make LoadAccountActions fail with a
duplicate-account error, while pairwise-distinct keys make it succeed and
register, under each key, an Account whose counters have been initialized
(InitCounters called during construction). -/
theorem loadAccountActions_duplicate_and_seed (st : TpReaderState) (rows : List AARow)
    (hrefs : ∀ aa ∈ rows, rowRefsOk st aa)
    (hfresh : ∀ aa ∈ rows, st.accountActions.lookup aa.keyId = none) :
    (¬ (rows.map AARow.keyId).Nodup →
      ∃ k, (LoadAccountActions st rows).2 = some (.duplicateAccount k))
    ∧ ((rows.map AARow.keyId).Nodup →
      (LoadAccountActions st rows).2 = none
      ∧ ∀ aa ∈ rows, ∃ acct : Account,
          (LoadAccountActions st rows).1.accountActions.lookup aa.keyId = some acct
          ∧ acct.countersInited = true ∧ acct.id = aa.keyId) :=
  ⟨fun hdup => loadAccountActions_dup_of_repeat rows st hrefs hfresh hdup,
   fun hnodup =>
     ⟨(loadAccountActions_success rows st hrefs hfresh hnodup).1,
      fun aa ha => by
        obtain ⟨tri, htri⟩ :=
          (loadAccountActions_success rows st hrefs hfresh hnodup).2.2.1 aa ha
        exact ⟨mkAccount aa tri, htri, rfl, rfl⟩⟩⟩

/-- Witness rows for C5: the same composite account key appears twice. -/
def aaRowsDupW : List AARow :=
  [{ keyId := "cgrates.org:1001", actionPlanId := "", actionTriggersId := "",
     allowNegative := false, disabled := false },
   { keyId := "cgrates.org:1001", actionPlanId := "", actionTriggersId := "",
     allowNegative := false, disabled := false }]

theorem loadAccountActions_duplicate_and_seed_witness :
    (LoadAccountActions NewTpReader aaRowsDupW).2
        = some (.duplicateAccount "cgrates.org:1001")
    ∧ ∃ k, (LoadAccountActions NewTpReader aaRowsDupW).2
        = some (.duplicateAccount k) :=
  ⟨by decide,
   (loadAccountActions_duplicate_and_seed NewTpReader aaRowsDupW
      (by decide) (by decide)).1 (by decide)⟩

/-- Claim C9: after a successful LoadAccountActions pass, every row with a
non-empty action-plan tag has its account key in the referenced ActionPlan's
bound-account set, and the account-to-action-plan reverse index maps the
account key to a list containing that plan's tag. -/
theorem loadAccountActions_binds_action_plans (st : TpReaderState) (rows : List AARow)
    (hrefs : ∀ aa ∈ rows, rowRefsOk st aa)
    (hfresh : ∀ aa ∈ rows, st.accountActions.lookup aa.keyId = none)
    (hnodup : (rows.map AARow.keyId).Nodup) :
    ∀ aa ∈ rows, aa.actionPlanId ≠ "" →
      (∃ ap', (LoadAccountActions st rows).1.actionPlans.lookup aa.actionPlanId
          = some ap' ∧ aa.keyId ∈ ap'.accountIDs)
      ∧ (∃ l', (LoadAccountActions st rows).1.acntActionPlans.lookup aa.keyId
          = some l' ∧ aa.actionPlanId ∈ l') :=
  (loadAccountActions_success rows st hrefs hfresh hnodup).2.2.2.2.2

/-- Witness state for C9: one action plan PACKAGE_10 with no bound account
yet. -/
def stW9 : TpReaderState :=
  { NewTpReader with
    actionPlans := [("PACKAGE_10",
      { id := "PACKAGE_10", actionTimings := [], accountIDs := [] })] }

/-- Witness row for C9: account bound to PACKAGE_10. -/
def aaRowW9 : AARow :=
  { keyId := "cgrates.org:1001", actionPlanId := "PACKAGE_10",
    actionTriggersId := "", allowNegative := false, disabled := false }

theorem loadAccountActions_binds_action_plans_witness :
    (∃ ap', (LoadAccountActions stW9 [aaRowW9]).1.actionPlans.lookup "PACKAGE_10"
        = some ap' ∧ "cgrates.org:1001" ∈ ap'.accountIDs)
    ∧ (∃ l', (LoadAccountActions stW9 [aaRowW9]).1.acntActionPlans.lookup "cgrates.org:1001"
        = some l' ∧ "PACKAGE_10" ∈ l') :=
  loadAccountActions_binds_action_plans stW9 [aaRowW9]
    (by decide) (by decide) (by decide) aaRowW9 (List.mem_singleton.mpr rfl) (by decide)

/-- Observable effects issued by LoadDestinationsFiltered against the store
and the transaction helpers. -/
inductive DestWriteEvent where
  | setDest (id : String) (transID : String)
  | setRevDest (id : String) (transID : String)
  | rollback (transID : String)
  | commit (transID : String)
  deriving DecidableEq, Repr

/-- Transaction id carried by an event. -/
def DestWriteEvent.transIDOf : DestWriteEvent → String
  | .setDest _ t => t
  | .setRevDest _ t => t
  | .rollback t => t
  | .commit t => t

/-- Write outcomes of the store during one destination batch, injected per
destination id. -/
structure DestWriteOracle where
  setDestFails : String → Bool
  setRevDestFails : String → Bool

/-- Shallow embedding of TpReader.LoadDestinationsFiltered (tp_reader.go,
lines 132-152) for a non-empty row set, as its trace of store/transaction
effects: one transaction id (utils.GenUUID, injected as transID) for the
whole call; each destination gets a SetDestination and a
SetReverseDestination write, each failed write triggers a
RollbackTransaction of that id, and the loop continues regardless; a single
CommitTransaction ends the call, which returns (true, nil) — write errors
are not propagated. -/
def LoadDestinationsFiltered (oracle : DestWriteOracle) (transID : String)
    (tpDests : List TPDestination) : List DestWriteEvent × Bool :=
  if tpDests.isEmpty then ([], false)
  else
    let evs := tpDests.foldl
      (fun acc tpDst =>
        let dst := NewDestinationFromTPDestination tpDst
        let acc := acc ++ [.setDest dst.id transID]
        let acc := if oracle.setDestFails dst.id then acc ++ [.rollback transID] else acc
        let acc := acc ++ [.setRevDest dst.id transID]
        if oracle.setRevDestFails dst.id then acc ++ [.rollback transID] else acc)
      []
    (evs ++ [.commit transID], true)

/-- Per-destination effect trace, used to state the claim. -/
def destEvents (oracle : DestWriteOracle) (transID : String) (d : Destination) :
    List DestWriteEvent :=
  [.setDest d.id transID]
  ++ (if oracle.setDestFails d.id then [.rollback transID] else [])
  ++ [.setRevDest d.id transID]
  ++ (if oracle.setRevDestFails d.id then [.rollback transID] else [])

theorem destEvents_transID (oracle : DestWriteOracle) (transID : String)
    (d : Destination) : ∀ e ∈ destEvents oracle transID d, e.transIDOf = transID := by
  intro e he
  unfold destEvents at he
  by_cases h1 : oracle.setDestFails d.id
  · by_cases h2 : oracle.setRevDestFails d.id
    · simp [h1, h2] at he
      rcases he with h | h | h | h <;> simp [h, DestWriteEvent.transIDOf]
    · simp [h1, h2] at he
      rcases he with h | h | h <;> simp [h, DestWriteEvent.transIDOf]
  · by_cases h2 : oracle.setRevDestFails d.id
    · simp [h1, h2] at he
      rcases he with h | h | h <;> simp [h, DestWriteEvent.transIDOf]
    · simp [h1, h2] at he
      rcases he with h | h <;> simp [h, DestWriteEvent.transIDOf]

theorem loadDestinationsFiltered_go (oracle : DestWriteOracle) (transID : String)
    (l : List TPDestination) (acc : List DestWriteEvent) :
    l.foldl
      (fun acc tpDst =>
        let dst := NewDestinationFromTPDestination tpDst
        let acc := acc ++ [.setDest dst.id transID]
        let acc := if oracle.setDestFails dst.id then acc ++ [.rollback transID] else acc
        let acc := acc ++ [.setRevDest dst.id transID]
        if oracle.setRevDestFails dst.id then acc ++ [.rollback transID] else acc)
      acc
    = acc ++ l.flatMap
        (fun tpDst => destEvents oracle transID (NewDestinationFromTPDestination tpDst)) := by
  induction l generalizing acc with
  | nil => simp
  | cons d rest ih =>
    simp only [List.foldl_cons, List.flatMap_cons, ih]
    by_cases h1 : oracle.setDestFails (NewDestinationFromTPDestination d).id
    · by_cases h2 : oracle.setRevDestFails (NewDestinationFromTPDestination d).id
      · simp [destEvents, h1, h2]
      · simp [destEvents, h1, h2]
    · by_cases h2 : oracle.setRevDestFails (NewDestinationFromTPDestination d).id
      · simp [destEvents, h1, h2]
      · simp [destEvents, h1, h2]

/-- Claim C8: a non-empty LoadDestinationsFiltered batch issues, under one
single transaction id, the per-destination write/rollback sequences of every
destination in order followed by one commit: every event of the call carries
the same transaction id, a failed SetDestination or SetReverseDestination is
followed by a RollbackTransaction of that id, the loop still processes every
remaining destination (each one's writes appear in the trace), and the call
reports success. -/
theorem loadDestinationsFiltered_rollback_policy (oracle : DestWriteOracle)
    (transID : String) (tpDests : List TPDestination) (hne : tpDests ≠ []) :
    (LoadDestinationsFiltered oracle transID tpDests).2 = true
    ∧ (LoadDestinationsFiltered oracle transID tpDests).1
        = tpDests.flatMap
            (fun tpDst => destEvents oracle transID (NewDestinationFromTPDestination tpDst))
          ++ [.commit transID]
    ∧ (∀ e ∈ (LoadDestinationsFiltered oracle transID tpDests).1,
        e.transIDOf = transID)
    ∧ (∀ d ∈ tpDests,
        DestWriteEvent.setDest (NewDestinationFromTPDestination d).id transID
          ∈ (LoadDestinationsFiltered oracle transID tpDests).1
        ∧ DestWriteEvent.setRevDest (NewDestinationFromTPDestination d).id transID
          ∈ (LoadDestinationsFiltered oracle transID tpDests).1) := by
  have hempty : tpDests.isEmpty = false := by
    cases tpDests with
    | nil => exact absurd rfl hne
    | cons a l => rfl
  have hmain : LoadDestinationsFiltered oracle transID tpDests
      = (tpDests.flatMap
          (fun tpDst => destEvents oracle transID (NewDestinationFromTPDestination tpDst))
          ++ [.commit transID], true) := by
    unfold LoadDestinationsFiltered
    rw [hempty]
    simp only [Bool.false_eq_true, if_false]
    rw [loadDestinationsFiltered_go]
    simp
  refine ⟨by rw [hmain], by rw [hmain], ?_, ?_⟩
  · intro e he
    rw [hmain] at he
    simp only [List.mem_append, List.mem_singleton] at he
    rcases he with he | he
    · obtain ⟨d, _, hed⟩ := List.mem_flatMap.mp he
      exact destEvents_transID oracle transID _ e hed
    · simp [he, DestWriteEvent.transIDOf]
  · intro d hd
    rw [hmain]
    constructor
    · refine List.mem_append_left _ (List.mem_flatMap.mpr ⟨d, hd, ?_⟩)
      unfold destEvents
      exact List.mem_append_left _ (List.mem_append_left _
        (List.mem_append_left _ (List.mem_singleton.mpr rfl)))
    · refine List.mem_append_left _ (List.mem_flatMap.mpr ⟨d, hd, ?_⟩)
      unfold destEvents
      exact List.mem_append_left _ (List.mem_append_right _ (List.mem_singleton.mpr rfl))

/-- Witness oracle for C8: the SetDestination write for DST_A fails, every
other write succeeds. -/
def oracleW : DestWriteOracle :=
  { setDestFails := fun s => decide (s = "DST_A"), setRevDestFails := fun _ => false }

/-- Witness destination rows for C8. -/
def tpDestsW : List TPDestination :=
  [{ id := "DST_A", prefixes := ["10"] }, { id := "DST_B", prefixes := ["20"] }]

theorem loadDestinationsFiltered_rollback_policy_witness :
    (LoadDestinationsFiltered oracleW "tx1" tpDestsW).1
      = [.setDest "DST_A" "tx1", .rollback "tx1", .setRevDest "DST_A" "tx1",
         .setDest "DST_B" "tx1", .setRevDest "DST_B" "tx1", .commit "tx1"]
    ∧ (LoadDestinationsFiltered oracleW "tx1" tpDestsW).2 = true :=
  ⟨by decide, (loadDestinationsFiltered_rollback_policy oracleW "tx1" tpDestsW
      (by decide)).1⟩

/-- Rating-plan binding (utils.TPRatingPlanBinding): the timing tag, the
destination-rates tag, the weight, and the timing filled in by SetTiming. -/
structure RPBinding where
  timingId : String
  destinationRatesId : String
  weight : Rat
  timing : Option TPTiming
  deriving DecidableEq, Repr

/-- Raw rating-plan row as returned by GetTPRatingPlans: the rating-plan tag
plus the binding fields. -/
structure RPRow where
  tag : String
  timingId : String
  destinationRatesId : String
  weight : Rat
  deriving DecidableEq, Repr

/-- Modelled from the spec: MapTPRatingPlanBindings, the Entity Mapper
grouping rating-plan rows by rating-plan tag (rows of one tag in row order,
tags in first-appearance order standing in for Go map iteration); its body
is not part of the provided source. -/
def MapTPRatingPlanBindings (rows : List RPRow) : List (String × List RPBinding) :=
  rows.foldl
    (fun acc r =>
      let b : RPBinding := { timingId := r.timingId,
                             destinationRatesId := r.destinationRatesId,
                             weight := r.weight, timing := none }
      match acc.lookup r.tag with
      | none => acc ++ [(r.tag, [b])]
      | some bs => AMap.insertKV acc r.tag (bs ++ [b]))
    []

/-- Modelled from the spec: MapTPDestinationRates keys the mapped
destination-rate groups by tag. -/
def MapTPDestinationRates (rows : List TPDestinationRate) : AMap TPDestinationRate :=
  rows.foldl (fun m g => m.insertKV g.id g) AMap.empty

/-- Modelled from the spec: MapTPRates keys the mapped rate rows by tag. -/
def MapTPRates (rows : List TPRate) : AMap TPRate :=
  rows.foldl (fun m r => m.insertKV r.id r) AMap.empty

/-- Modelled from the spec: GetRateInterval builds the rate interval of a
binding and a destination-rate entry — the binding's calendar pattern and
weight with the entry's price curve; its body is not part of the provided
source. -/
def GetRateInterval (rp : RPBinding) (dr : DestRateItem) : RateInterval :=
  { timing := (rp.timing.getD
      { id := "", years := [], months := [], monthDays := [], weekDays := [],
        startTime := "", endTime := "" }).toRITiming,
    weight := rp.weight,
    rates := (dr.rate.getD { id := "", slots := [] }).slots }

/-- Source-of-truth boundary (LoadReader) for the filtered rating-plan load:
each accessor returns the rows matching a tag, an empty list meaning
absence.  Reader errors are not modelled (the claims under verification
concern the no-rows case). -/
structure LoadReader where
  getTPRatingPlans : String → List RPRow
  getTPTimings : String → List TPTiming
  getTPDestinationRates : String → List TPDestinationRate
  getTPRates : String → List TPRate
  getTPDestinations : String → List TPDestination

/-- Persistent store as touched by LoadRatingPlansFiltered: the destination
existence probe over the pre-call contents, and the logs of rating-plan and
destination writes issued by the call (ids in write order). -/
structure Store where
  hasDestinationData : String → Bool
  writtenPlans : List String
  writtenDests : List String
  writtenRevDests : List String

def Store.setRatingPlan (s : Store) (id : String) : Store :=
  { s with writtenPlans := s.writtenPlans ++ [id] }

def Store.setDestination (s : Store) (id : String) : Store :=
  { s with writtenDests := s.writtenDests ++ [id] }

def Store.setReverseDestination (s : Store) (id : String) : Store :=
  { s with writtenRevDests := s.writtenRevDests ++ [id] }

/-- Errors raised by LoadRatingPlansFiltered.  With a store attached the
"could not get destination" return of lines 305-307 is unreachable (the
probe branch ends in continue), so it has no constructor here. -/
inductive RPFErr where
  | noTiming (id : String)
  | noDestinationRates (id : String)
  | noRates (id : String)
  deriving DecidableEq, Repr

/-- Error messages produced by the fmt.Errorf calls of
LoadRatingPlansFiltered (without the trailing wrapped source error, nil in
the modelled runs). -/
def RPFErr.message : RPFErr → String
  | .noTiming id => "no timing with id " ++ id
  | .noDestinationRates id => "no DestinationRates profile with id " ++ id
  | .noRates id => "no Rates profile with id " ++ id

/-- Body of the innermost loop of LoadRatingPlansFiltered (tp_reader.go,
lines 273-312) for one destination-rate entry: fetch and map the rates rows
(empty means failure naming the rate id), resolve the entry's rate, merge
the rate interval into the plan's destination bucket, and for a non-*any
destination fetch its rows — when present they are written to the store,
when absent the attached store is probed and the loop continues either
way. -/
def loadRPDrate (lr : LoadReader) (rp : RPBinding) (plan : RatingPlan)
    (store : Store) (drate : DestRateItem) : Store × Except RPFErr RatingPlan :=
  let tprt := lr.getTPRates drate.rateId
  if tprt.isEmpty then (store, .error (.noRates drate.rateId))
  else
    let rt := MapTPRates tprt
    let drate' := { drate with rate := rt.lookup drate.rateId }
    let plan' := plan.addRateIntervalD drate'.destinationId (GetRateInterval rp drate')
    if drate'.destinationId = ANY then (store, .ok plan')
    else
      let dms := (lr.getTPDestinations drate'.destinationId).map
        NewDestinationFromTPDestination
      if dms.isEmpty then
        let _probed := store.hasDestinationData drate'.destinationId
        (store, .ok plan')
      else
        let store' := dms.foldl
          (fun s d => (s.setDestination d.id).setReverseDestination d.id) store
        (store', .ok plan')

/-- Inner loop of LoadRatingPlansFiltered over the destination-rate entries
of one binding. -/
def loadRPDrates (lr : LoadReader) (rp : RPBinding) :
    RatingPlan → Store → List DestRateItem → Store × Except RPFErr RatingPlan
  | plan, store, [] => (store, .ok plan)
  | plan, store, drate :: rest =>
    match loadRPDrate lr rp plan store drate with
    | (store', .error e) => (store', .error e)
    | (store', .ok plan') => loadRPDrates lr rp plan' store' rest

/-- Body of the binding loop of LoadRatingPlansFiltered (tp_reader.go, lines
254-312): fetch and map the timing rows (empty means failure naming the
timing id), set the binding's timing, fetch and map the destination-rate
rows (empty means failure naming the destination-rates id), then process the
group's entries. -/
def loadRPBinding (lr : LoadReader) (plan : RatingPlan) (store : Store)
    (rp : RPBinding) : Store × Except RPFErr RatingPlan :=
  let tptm := lr.getTPTimings rp.timingId
  if tptm.isEmpty then (store, .error (.noTiming rp.timingId))
  else
    let tm := MapTPTimings tptm
    let rp' := { rp with timing := tm.lookup rp.timingId }
    let tpdrm := lr.getTPDestinationRates rp'.destinationRatesId
    if tpdrm.isEmpty then (store, .error (.noDestinationRates rp'.destinationRatesId))
    else
      let drm := MapTPDestinationRates tpdrm
      let items := ((drm.lookup rp'.destinationRatesId).getD
        { id := rp'.destinationRatesId, destinationRates := [] }).destinationRates
      loadRPDrates lr rp' plan store items

def loadRPBindings (lr : LoadReader) :
    RatingPlan → Store → List RPBinding → Store × Except RPFErr RatingPlan
  | plan, store, [] => (store, .ok plan)
  | plan, store, rp :: rest =>
    match loadRPBinding lr plan store rp with
    | (store', .error e) => (store', .error e)
    | (store', .ok plan') => loadRPBindings lr plan' store' rest

/-- The per-tag body of LoadRatingPlansFiltered: a fresh RatingPlan for the
tag, the binding loop, and on success the SetRatingPlan store write. -/
def loadRPTag (lr : LoadReader) (store : Store) (tagBnds : String × List RPBinding) :
    Store × Except RPFErr Unit :=
  match loadRPBindings lr { id := tagBnds.1, destinationRates := [] } store tagBnds.2 with
  | (store', .error e) => (store', .error e)
  | (store', .ok _plan) => (store'.setRatingPlan tagBnds.1, .ok ())

def loadRPTags (lr : LoadReader) :
    Store → List (String × List RPBinding) → Store × Except RPFErr Unit
  | store, [] => (store, .ok ())
  | store, tb :: rest =>
    match loadRPTag lr store tb with
    | (store', .error e) => (store', .error e)
    | (store', .ok _) => loadRPTags lr store' rest

/-- Shallow embedding of TpReader.LoadRatingPlansFiltered (tp_reader.go,
lines 242-319): fetch the rating-plan rows for the tag (no rows means
(false, nil)), group them into per-tag bindings, process each tag and
persist its plan, returning (true, nil) on success; the first error stops
the call with the store as mutated so far. -/
def LoadRatingPlansFiltered (lr : LoadReader) (store : Store) (tag : String) :
    Store × Except RPFErr Bool :=
  let mpRpls := lr.getTPRatingPlans tag
  if mpRpls.isEmpty then (store, .ok false)
  else
    match loadRPTags lr store (MapTPRatingPlanBindings mpRpls) with
    | (store', .error e) => (store', .error e)
    | (store', .ok _) => (store', .ok true)

/-- Witness reader for the C6 counterexample: rating-plan RP_A binds a
DestinationRates group DRA that exists but is empty, RP_B binds DR1 for
which the source has no rows; the store has no destination data (and no
rating-plan data for DR1 is ever even asked for). -/
def lrW6 : LoadReader :=
  { getTPRatingPlans := fun _ =>
      [{ tag := "RP_A", timingId := "T1", destinationRatesId := "DRA", weight := 10 },
       { tag := "RP_B", timingId := "T1", destinationRatesId := "DR1", weight := 10 }],
    getTPTimings := fun s =>
      if s = "T1" then
        [{ id := "T1", years := [], months := [], monthDays := [], weekDays := [],
           startTime := "00:00:00", endTime := "" }]
      else [],
    getTPDestinationRates := fun s =>
      if s = "DRA" then [{ id := "DRA", destinationRates := [] }] else [],
    getTPRates := fun _ => [],
    getTPDestinations := fun _ => [] }

/-- Witness store for C6: empty, with no pre-existing destination data. -/
def storeW6 : Store :=
  { hasDestinationData := fun _ => false, writtenPlans := [],
    writtenDests := [], writtenRevDests := [] }

/-- Counterexample to claim C6 as stated: a call whose binding for RP_B
references the DestinationRates id DR1 with no source rows does fail with
the error naming DR1, but the store's rating-plan state is not unchanged by
that call — the plan RP_A, processed earlier in the same call, has already
been persisted when the failure occurs. -/
theorem loadRatingPlansFiltered_persists_earlier_tag :
    (LoadRatingPlansFiltered lrW6 storeW6 "").2
        = .error (.noDestinationRates "DR1")
    ∧ (LoadRatingPlansFiltered lrW6 storeW6 "").1.writtenPlans = ["RP_A"]
    ∧ storeW6.writtenPlans = [] := by
  decide

/-- Claim C6 as amended: when the grouped rating-plan rows of the call are a
single binding of a single tag (the spec's scenario: one RatingPlan binding
referencing DR1) whose timing resolves but whose DestinationRates id yields
no rows from the source, LoadRatingPlansFiltered fails with the error naming
that id — the message is "no DestinationRates profile with id " followed by
the id — and the store is completely unchanged: no RatingPlan (and no
destination) is persisted by the call.  In general only the tags processed
before the failing binding have been persisted (see the counterexample). -/
theorem loadRatingPlansFiltered_no_rows_error (lr : LoadReader) (store : Store)
    (tag t : String) (b : RPBinding)
    (hgroup : MapTPRatingPlanBindings (lr.getTPRatingPlans tag) = [(t, [b])])
    (htm : lr.getTPTimings b.timingId ≠ [])
    (hdr : lr.getTPDestinationRates b.destinationRatesId = []) :
    LoadRatingPlansFiltered lr store tag
        = (store, .error (.noDestinationRates b.destinationRatesId))
    ∧ (RPFErr.noDestinationRates b.destinationRatesId).message
        = "no DestinationRates profile with id " ++ b.destinationRatesId := by
  have hrows : lr.getTPRatingPlans tag ≠ [] := by
    intro hcontra
    rw [hcontra] at hgroup
    exact absurd hgroup.symm (by simp [MapTPRatingPlanBindings])
  have hrowsEmpty : (lr.getTPRatingPlans tag).isEmpty = false := by
    cases hx : lr.getTPRatingPlans tag with
    | nil => exact absurd hx hrows
    | cons a l => rfl
  have hbind : loadRPBinding lr { id := t, destinationRates := [] } store b
      = (store, .error (.noDestinationRates b.destinationRatesId)) := by
    unfold loadRPBinding
    have htmEmpty : (lr.getTPTimings b.timingId).isEmpty = false := by
      cases hx : lr.getTPTimings b.timingId with
      | nil => exact absurd hx htm
      | cons a l => rfl
    dsimp only
    rw [htmEmpty]
    simp only [Bool.false_eq_true, if_false]
    rw [hdr]
    simp
  constructor
  · unfold LoadRatingPlansFiltered
    dsimp only
    rw [hrowsEmpty]
    simp only [Bool.false_eq_true, if_false]
    rw [hgroup]
    simp only [loadRPTags, loadRPTag, loadRPBindings]
    rw [hbind]
  · rfl

/-- Witness reader for the amended C6 theorem: a single binding of tag RP_B
referencing DR1, which yields no destination-rate rows. -/
def lrW6s : LoadReader :=
  { lrW6 with
    getTPRatingPlans := fun _ =>
      [{ tag := "RP_B", timingId := "T1", destinationRatesId := "DR1", weight := 10 }] }

theorem loadRatingPlansFiltered_no_rows_error_witness :
    LoadRatingPlansFiltered lrW6s storeW6 "RP_B"
        = (storeW6, .error (.noDestinationRates "DR1"))
    ∧ (RPFErr.noDestinationRates "DR1").message
        = "no DestinationRates profile with id DR1" :=
  loadRatingPlansFiltered_no_rows_error lrW6s storeW6 "RP_B" "RP_B"
    { timingId := "T1", destinationRatesId := "DR1", weight := 10, timing := none }
    (by decide) (by decide) (by decide)

end Cgrates
